import Mathlib

/-!
Verification of the UNO game engine (`game-logic/GameEngine.js`, the
seven-operation revision exporting `createGameState`, `playCard`, `drawCard`,
`playDrawnCard`, `passDrawnCard`, `callUnoPenalty`, `callUnoSelf`).

Shallow embedding notes:
* JS card/color/value strings become inductive types; `null` becomes `Option`.
* Arrays become `List` with JS index 0 at the head; `push` appends at the end,
  `shift` removes the head, `pop` removes the last element, the discard-pile
  top (`discardPile[discardPile.length - 1]`) is the last element.
* `shuffleDeck` (Fisher-Yates over `Math.random`) is nondeterministic; every
  operation that can reshuffle takes an explicit parameter
  `sh : List Card → List Card` standing for one outcome of that call, and
  theorems quantify over all `sh` that are permutations (`IsShuffler`).
  `createGameState` takes the already-shuffled 108-card deck as a parameter;
  inside its opening-card loop the JS calls `shuffleDeck(drawPile)` but
  discards the returned copy, so that call has no effect and is not modeled.
* Operations return `EngineResult.err msg` exactly where the JS returns an
  `{ error: msg }` object; `CreateResult.thrown` models a JS `throw`.
* Where the JS would fault on malformed states (reading a property of
  `undefined`), the embedding returns a tagged `"TypeError"` value; such
  states are unreachable for engine-produced states.
-/

inductive Color where
  | red | yellow | green | blue
deriving DecidableEq, Repr

inductive CardValue where
  | num (n : Nat)
  | skip
  | reverse
  | draw2
  | wild
  | wild_draw4
deriving DecidableEq, Repr

inductive CardType where
  | number | action | wild
deriving DecidableEq, Repr

structure Card where
  color : Option Color
  value : CardValue
  type : CardType
deriving DecidableEq, Repr

structure Player where
  id : String
  hand : List Card
  isActive : Option Bool
deriving DecidableEq, Repr

structure PendingDraw where
  card : Card
  playerId : String
deriving DecidableEq, Repr

structure GameState where
  players : List Player
  drawPile : List Card
  discardPile : List Card
  currentPlayerIndex : Nat
  directionOfPlay : Int
  currentColor : Option Color
  isGameOver : Bool
  winner : Option String
  playableDrawnCard : Option PendingDraw
  unoPlayerId : Option String
deriving DecidableEq, Repr

inductive EngineResult where
  | ok (s : GameState)
  | err (msg : String)
deriving DecidableEq, Repr

inductive CreateResult where
  | state (s : GameState)
  | thrown (msg : String)
  | stuck
deriving DecidableEq, Repr

/-- The four standard UNO colors (JS constant `COLORS`). -/
def COLORS : List Color := [.red, .yellow, .green, .blue]

/-- One color section of the deck: one 0, two each of 1-9, two each of
skip/reverse/draw2, in the push order of the JS `createDeck`. -/
def colorSection (c : Color) : List Card :=
  [⟨some c, .num 0, .number⟩] ++
    ((List.range 9).flatMap (fun i =>
      [⟨some c, .num (i + 1), .number⟩, ⟨some c, .num (i + 1), .number⟩])) ++
    [⟨some c, .skip, .action⟩, ⟨some c, .skip, .action⟩,
     ⟨some c, .reverse, .action⟩, ⟨some c, .reverse, .action⟩,
     ⟨some c, .draw2, .action⟩, ⟨some c, .draw2, .action⟩]

/-- The full 108-card UNO deck (JS `createDeck`). -/
def createDeck : List Card :=
  (COLORS.flatMap colorSection) ++
    ((List.range 4).flatMap (fun _ =>
      [⟨none, .wild, .wild⟩, ⟨none, .wild_draw4, .wild⟩]))

/-- Replace the element at index `i` (a JS in-place update of one array slot). -/
def modifyIdx (l : List α) (i : Nat) (f : α → α) : List α :=
  match l, i with
  | [], _ => []
  | a :: t, 0 => f a :: t
  | a :: t, i + 1 => a :: modifyIdx t i f

/-- Update the first element satisfying the predicate (JS `Array.find`
returns an alias which is then mutated in place). -/
def modifyFirst (l : List α) (p : α → Bool) (f : α → α) : List α :=
  match l with
  | [] => []
  | a :: t => if p a then f a :: t else a :: modifyFirst t p f

/-- JS wraparound of `nextIndex + direction` inside `getNextPlayerIndex`:
`if (nextIndex < 0) nextIndex = totalPlayers - 1; else if (nextIndex >= totalPlayers) nextIndex = 0`. -/
def wrapIndex (totalPlayers : Nat) (i : Int) : Nat :=
  if i < 0 then totalPlayers - 1
  else if i ≥ totalPlayers then 0
  else i.toNat

/-- `players[i].isActive !== false` (with an out-of-range access counting as
inactive; in the engine the index is always in range when this is read). -/
def activeAt (players : List Player) (i : Nat) : Bool :=
  match players[i]? with
  | some p => decide (p.isActive ≠ some false)
  | none => false

/-- The `while (stepsRemaining > 0 && attempts < totalPlayers * 2)` loop of
`getNextPlayerIndex`, with `fuel` equal to the remaining allowed attempts.
Returns the final `nextIndex` and the total number of attempts made. -/
def gnpiGo (players : List Player) (dir : Int) :
    Nat → Nat → Nat → Nat → Nat × Nat
  | fuel, idx, steps, attempts =>
    if steps = 0 then (idx, attempts)
    else
      match fuel with
      | 0 => (idx, attempts)
      | fuel + 1 =>
        gnpiGo players dir fuel (wrapIndex players.length (idx + dir))
          (if activeAt players (wrapIndex players.length (idx + dir)) then steps - 1
           else steps)
          (attempts + 1)

/-- `getNextPlayerIndex` over its projections of the game state. -/
def getNextPlayerIndexFrom (players : List Player) (dir : Int)
    (currentPlayerIndex : Nat) (steps : Nat) : Nat :=
  if (gnpiGo players dir (players.length * 2) currentPlayerIndex steps 0).2 ≥
       players.length * 2 then
    currentPlayerIndex
  else (gnpiGo players dir (players.length * 2) currentPlayerIndex steps 0).1

/-- JS `getNextPlayerIndex(gameState, steps)`: advance `steps` turns in the
direction of play, only counting steps that land on an active player, with a
`totalPlayers * 2` attempts bound that falls back to the current index. -/
def getNextPlayerIndex (gameState : GameState) (steps : Nat) : Nat :=
  getNextPlayerIndexFrom gameState.players gameState.directionOfPlay
    gameState.currentPlayerIndex steps

/-- JS `countActivePlayers`: players whose `isActive` is not `false`. -/
def countActivePlayers (gameState : GameState) : Nat :=
  (gameState.players.filter (fun p => decide (p.isActive ≠ some false))).length

/-- JS `isMoveValid(cardToPlay, topCard, currentColor)`. -/
def isMoveValid (cardToPlay topCard : Card) (currentColor : Option Color) : Bool :=
  if cardToPlay.type = .wild then true
  else if cardToPlay.color = currentColor ∨ cardToPlay.color = topCard.color then true
  else if cardToPlay.value = topCard.value then true
  else false

/-- `isMoveValid` as called on `discardPile[discardPile.length - 1]`, which is
`undefined` when the pile is empty.  The JS short-circuits: a wild card, or a
color match with `currentColor`, succeeds before `topCard` is dereferenced;
otherwise reading `topCard.color` on `undefined` faults (`none`). -/
def isMoveValidTop (cardToPlay : Card) (topCard? : Option Card)
    (currentColor : Option Color) : Option Bool :=
  if cardToPlay.type = .wild then some true
  else if cardToPlay.color = currentColor then some true
  else
    match topCard? with
    | none => none
    | some topCard =>
      some (decide (cardToPlay.color = topCard.color) ||
            decide (cardToPlay.value = topCard.value))

/-- Wild cards get their color reset to `null` when the discard pile is
reshuffled. -/
def resetWildColor (card : Card) : Card :=
  if card.type = .wild then { card with color := none } else card

/-- JS `reshuffleDiscardPile`: only acts when the draw pile is empty and the
discard pile holds at least 2 cards; keeps the top discard, shuffles the rest
back in (wild colors reset). -/
def reshuffleDiscardPile (gameState : GameState)
    (sh : List Card → List Card) : GameState :=
  if gameState.drawPile.length > 0 then gameState
  else if gameState.discardPile.length < 2 then gameState
  else
    match gameState.discardPile.getLast? with
    | none => gameState
    | some topCard =>
      { gameState with
          drawPile := sh (gameState.discardPile.dropLast.map resetWildColor),
          discardPile := [topCard] }

/-- JS `checkWinner`: a player with an empty hand has won. -/
def checkWinner (player : Player) : Bool :=
  player.hand.length = 0

/-- The UNO-state detection block shared by `playCard` and `playDrawnCard`:
`players.find(p => p.id === playerId)`, flag the player at exactly one card,
clear a stale own flag otherwise. -/
def updateUnoFlag (players : List Player) (playerId : String)
    (old : Option String) : Option String :=
  match players.find? (fun p => decide (p.id = playerId)) with
  | some pw =>
    if pw.hand.length = 1 then some playerId
    else if old = some playerId then none
    else old
  | none => if old = some playerId then none else old

/-- Is the chosen color a member of `COLORS` (JS `COLORS.includes(chosenColor)`;
`includes(null)` is false)? -/
def chosenColorOk (chosenColor : Option Color) : Bool :=
  match chosenColor with
  | some c => COLORS.contains c
  | none => false

/-- JS `applyCardEffect(gameState, card, chosenColor)` of the seven-operation
engine: per-card-kind color update, penalty draws (with a reshuffle attempt
when short) and turn advancement. -/
def applyCardEffect (gameState : GameState) (card : Card)
    (chosenColor : Option Color) (sh : List Card → List Card) : GameState :=
  match card.value with
  | .skip =>
    let g := { gameState with currentColor := card.color }
    { g with currentPlayerIndex := getNextPlayerIndex g 2 }
  | .reverse =>
    let g := { gameState with
                 currentColor := card.color,
                 directionOfPlay := gameState.directionOfPlay * (-1) }
    if countActivePlayers g = 2 then
      { g with currentPlayerIndex := getNextPlayerIndex g 2 }
    else
      { g with currentPlayerIndex := getNextPlayerIndex g 1 }
  | .draw2 =>
    let g := { gameState with currentColor := card.color }
    let nextPlayerIndex := getNextPlayerIndex g 1
    let g := if g.drawPile.length < 2 then reshuffleDiscardPile g sh else g
    let cardsToDraw := min 2 g.drawPile.length
    let g := { g with
                 players := modifyIdx g.players nextPlayerIndex
                   (fun p => { p with hand := p.hand ++ g.drawPile.take cardsToDraw }),
                 drawPile := g.drawPile.drop cardsToDraw }
    { g with currentPlayerIndex := getNextPlayerIndex g 2 }
  | .wild =>
    let g := { gameState with currentColor := chosenColor }
    { g with currentPlayerIndex := getNextPlayerIndex g 1 }
  | .wild_draw4 =>
    let nextPlayerForDraw4 := getNextPlayerIndex gameState 1
    let g := if gameState.drawPile.length < 4 then
               reshuffleDiscardPile gameState sh
             else gameState
    let cardsToDraw4 := min 4 g.drawPile.length
    let g := { g with
                 players := modifyIdx g.players nextPlayerForDraw4
                   (fun p => { p with hand := p.hand ++ g.drawPile.take cardsToDraw4 }),
                 drawPile := g.drawPile.drop cardsToDraw4 }
    let g := { g with currentColor := chosenColor }
    { g with currentPlayerIndex := getNextPlayerIndex g 2 }
  | .num _ =>
    { gameState with currentColor := card.color }

/-- JS `dealCards`: deal `cardsPerPlayer` cards to each id in seating order;
the created player objects carry no `isActive` field. -/
def dealCards (deck : List Card) (playerIds : List String)
    (cardsPerPlayer : Nat) : List Player × List Card :=
  match playerIds with
  | [] => ([], deck)
  | playerId :: rest =>
    let hand := deck.take cardsPerPlayer
    let r := dealCards (deck.drop cardsPerPlayer) rest cardsPerPlayer
    ({ id := playerId, hand := hand, isActive := none } :: r.1, r.2)

/-- The opening-card loop of `createGameState`: while the candidate first card
is a wild or action card, push it to the back of the draw pile and shift the
next candidate.  (The JS `shuffleDeck(drawPile)` inside the loop discards its
result, so the loop is a plain rotation.)  `fuel` bounds the rotation; `none`
models the JS looping forever on a deck with no number card. -/
def openingRotate (fuel : Nat) (firstCard : Card) (drawPile : List Card) :
    Option (Card × List Card) :=
  if firstCard.type = .wild ∨ firstCard.type = .action then
    match fuel with
    | 0 => none
    | fu + 1 =>
      match drawPile ++ [firstCard] with
      | [] => none
      | c :: rest => openingRotate fu c rest
  else some (firstCard, drawPile)

/-- JS `createGameState(playerIds)`, with the outcome of the initial
`shuffleDeck(createDeck())` passed in as `deck`.  Out-of-range player counts
`throw` (modeled as `.thrown`); `.stuck` marks states where the JS would fault
or loop forever (impossible for a permutation of the real deck). -/
def createGameState (playerIds : List String) (deck : List Card)
    (sh : List Card → List Card) : CreateResult :=
  if playerIds.length < 2 ∨ playerIds.length > 10 then
    .thrown "Game requires 2-10 players"
  else
    let r := dealCards deck playerIds 7
    match r.2 with
    | [] => .stuck
    | first :: rest =>
      match openingRotate (rest.length + 2) first rest with
      | none => .stuck
      | some (firstCard, drawPile) =>
        let gameState : GameState :=
          { players := r.1
            drawPile := drawPile
            discardPile := [firstCard]
            currentPlayerIndex := 0
            directionOfPlay := 1
            currentColor := firstCard.color
            isGameOver := false
            winner := none
            playableDrawnCard := none
            unoPlayerId := none }
        if firstCard.type = .action then
          .state (applyCardEffect gameState firstCard none sh)
        else .state gameState

/-- The `findIndex` callback of `playCard`: strict `===` comparison of all
three card fields. -/
def cardMatcher (cardToPlay : Card) : Card → Bool := fun card =>
  decide (card.color = cardToPlay.color) &&
  decide (card.value = cardToPlay.value) &&
  decide (card.type = cardToPlay.type)

/-- JS `playCard(gameState, playerId, cardToPlay, chosenColor)`. -/
def playCard (gameState : GameState) (playerId : String) (cardToPlay : Card)
    (chosenColor : Option Color) (sh : List Card → List Card) : EngineResult :=
  if gameState.isGameOver then .err "Game is already over"
  else if gameState.playableDrawnCard.isSome then
    .err "You must first play or keep the card you just drew. You cannot play other cards from your hand at this time."
  else
    match gameState.players[gameState.currentPlayerIndex]? with
    | none => .err "Not your turn"
    | some currentPlayer =>
      if currentPlayer.id ≠ playerId then .err "Not your turn"
      else
        match currentPlayer.hand.findIdx? (cardMatcher cardToPlay) with
        | none => .err "Card not in hand"
        | some cardIndex =>
          match isMoveValidTop cardToPlay gameState.discardPile.getLast?
              gameState.currentColor with
          | none => .err "TypeError: discard pile is empty"
          | some valid =>
            if ¬ valid then
              .err "Invalid move - card does not match color, number, or symbol"
            else if cardToPlay.type = .wild ∧ chosenColor = none then
              .err "Must choose a color for wild card"
            else if cardToPlay.type = .wild ∧ ¬ chosenColorOk chosenColor then
              .err "Invalid color choice"
            else
              let newPlayers := modifyIdx gameState.players
                gameState.currentPlayerIndex
                (fun p => { p with hand := p.hand.eraseIdx cardIndex })
              let newState : GameState :=
                { gameState with
                    players := newPlayers
                    discardPile := gameState.discardPile ++ [cardToPlay]
                    unoPlayerId := updateUnoFlag newPlayers playerId
                      gameState.unoPlayerId }
              match newState.players[newState.currentPlayerIndex]? with
              | none => .err "TypeError: no current player"
              | some playerWhoJustPlayed =>
                if checkWinner playerWhoJustPlayed then
                  .ok (applyCardEffect
                    { newState with isGameOver := true, winner := some playerId }
                    cardToPlay chosenColor sh)
                else
                  let stateAfterEffect :=
                    applyCardEffect newState cardToPlay chosenColor sh
                  if cardToPlay.type = .number then
                    .ok { stateAfterEffect with
                            currentPlayerIndex :=
                              getNextPlayerIndex stateAfterEffect 1 }
                  else .ok stateAfterEffect

/-- JS `drawCard(gameState, playerId)`: draw one card; a playable draw enters
the limbo state, an unplayable one is kept and the turn passes. -/
def drawCard (gameState : GameState) (playerId : String)
    (sh : List Card → List Card) : EngineResult :=
  if gameState.isGameOver then .err "Game is already over"
  else
    match gameState.players[gameState.currentPlayerIndex]? with
    | none => .err "Not your turn"
    | some currentPlayer =>
      if currentPlayer.id ≠ playerId then .err "Not your turn"
      else
        let g := if gameState.drawPile.length = 0 then
                   reshuffleDiscardPile gameState sh
                 else gameState
        match g.drawPile with
        | [] => .err "No cards available to draw"
        | drawnCard :: restPile =>
          match isMoveValidTop drawnCard g.discardPile.getLast? g.currentColor with
          | none => .err "TypeError: discard pile is empty"
          | some isPlayable =>
            if isPlayable then
              .ok { g with
                      drawPile := restPile
                      playableDrawnCard :=
                        some { card := drawnCard, playerId := playerId } }
            else
              let g2 := { g with
                            drawPile := restPile
                            players := modifyIdx g.players g.currentPlayerIndex
                              (fun p => { p with hand := p.hand ++ [drawnCard] }) }
              let g2 := { g2 with
                            unoPlayerId :=
                              if g2.unoPlayerId = some playerId then none
                              else g2.unoPlayerId }
              .ok { g2 with
                      currentPlayerIndex := getNextPlayerIndex g2 1
                      playableDrawnCard := none }

/-- JS `playDrawnCard(gameState, playerId, chosenColor)`: play the pending
drawn card out of the limbo state. -/
def playDrawnCard (gameState : GameState) (playerId : String)
    (chosenColor : Option Color) (sh : List Card → List Card) : EngineResult :=
  if gameState.isGameOver then .err "Game is already over"
  else
    match gameState.players[gameState.currentPlayerIndex]? with
    | none => .err "Not your turn"
    | some currentPlayer =>
      if currentPlayer.id ≠ playerId then .err "Not your turn"
      else
        match gameState.playableDrawnCard with
        | none => .err "No drawn card available to play"
        | some pending =>
          if pending.playerId ≠ playerId then
            .err "No drawn card available to play"
          else
            let cardToPlay := pending.card
            match isMoveValidTop cardToPlay gameState.discardPile.getLast?
                gameState.currentColor with
            | none => .err "TypeError: discard pile is empty"
            | some valid =>
              if ¬ valid then
                .err "Invalid move - card does not match color, number, or symbol"
              else if cardToPlay.type = .wild ∧ chosenColor = none then
                .err "Must choose a color for wild card"
              else if cardToPlay.type = .wild ∧ ¬ chosenColorOk chosenColor then
                .err "Invalid color choice"
              else
                let newState : GameState :=
                  { gameState with
                      discardPile := gameState.discardPile ++ [cardToPlay]
                      playableDrawnCard := none
                      unoPlayerId := updateUnoFlag gameState.players playerId
                        gameState.unoPlayerId }
                match newState.players[newState.currentPlayerIndex]? with
                | none => .err "TypeError: no current player"
                | some playerWhoJustPlayed =>
                  if checkWinner playerWhoJustPlayed then
                    .ok (applyCardEffect
                      { newState with isGameOver := true, winner := some playerId }
                      cardToPlay chosenColor sh)
                  else
                    let stateAfterEffect :=
                      applyCardEffect newState cardToPlay chosenColor sh
                    if cardToPlay.type = .number then
                      .ok { stateAfterEffect with
                              currentPlayerIndex :=
                                getNextPlayerIndex stateAfterEffect 1 }
                    else .ok stateAfterEffect

/-- JS `passDrawnCard(gameState, playerId)`: keep the pending drawn card and
end the turn. -/
def passDrawnCard (gameState : GameState) (playerId : String) : EngineResult :=
  if gameState.isGameOver then .err "Game is already over"
  else
    match gameState.players[gameState.currentPlayerIndex]? with
    | none => .err "Not your turn"
    | some currentPlayer =>
      if currentPlayer.id ≠ playerId then .err "Not your turn"
      else
        match gameState.playableDrawnCard with
        | none => .err "No drawn card available to pass"
        | some pending =>
          if pending.playerId ≠ playerId then
            .err "No drawn card available to pass"
          else
            let g := { gameState with
                         players := modifyIdx gameState.players
                           gameState.currentPlayerIndex
                           (fun p => { p with hand := p.hand ++ [pending.card] }) }
            let g := { g with
                         unoPlayerId :=
                           if g.unoPlayerId = some playerId then none
                           else g.unoPlayerId }
            let g := { g with playableDrawnCard := none }
            .ok { g with currentPlayerIndex := getNextPlayerIndex g 1 }

/-- One iteration of the penalty loop in `callUnoPenalty`: reshuffle if the
draw pile is empty, then `pop` one card onto the target player's hand. -/
def penaltyDrawOne (g : GameState) (targetPlayerId : String)
    (sh : List Card → List Card) : GameState :=
  let g := if g.drawPile.length = 0 then reshuffleDiscardPile g sh else g
  match g.drawPile.getLast? with
  | none => g
  | some penaltyCard =>
    { g with
        drawPile := g.drawPile.dropLast
        players := modifyFirst g.players (fun p => decide (p.id = targetPlayerId))
          (fun p => { p with hand := p.hand ++ [penaltyCard] }) }

/-- JS `callUnoPenalty(gameState, targetPlayerId, callerPlayerId)`: deal two
penalty cards to a still-vulnerable target.  The JS attaches
`success`/`penaltyApplied` metadata to the returned state object; the metadata
is not part of the game state and is not modeled. -/
def callUnoPenalty (gameState : GameState) (targetPlayerId : String)
    (callerPlayerId : Option String) (sh : List Card → List Card) : EngineResult :=
  if gameState.unoPlayerId ≠ some targetPlayerId then
    .err "UNO call invalid - player is no longer vulnerable"
  else
    match gameState.players.find? (fun p => decide (p.id = targetPlayerId)) with
    | none => .err "Player not found"
    | some targetPlayer =>
      if targetPlayer.hand.length ≠ 1 then
        .err "UNO call invalid - player does not have exactly 1 card"
      else
        let _ := callerPlayerId
        let g := penaltyDrawOne gameState targetPlayerId sh
        let g := penaltyDrawOne g targetPlayerId sh
        .ok { g with unoPlayerId := none }

/-- JS `callUnoSelf(gameState, playerId)`: clear the caller's own UNO flag. -/
def callUnoSelf (gameState : GameState) (playerId : String) : EngineResult :=
  if gameState.unoPlayerId ≠ some playerId then
    .err "You are not in UNO state"
  else
    match gameState.players.find? (fun p => decide (p.id = playerId)) with
    | none => .err "Invalid UNO self-call"
    | some player =>
      if player.hand.length ≠ 1 then .err "Invalid UNO self-call"
      else .ok { gameState with unoPlayerId := none }

/-! ### Reachability -/

/-- A function that could be one outcome of the Fisher-Yates `shuffleDeck`:
it permutes its input. -/
def IsShuffler (sh : List Card → List Card) : Prop :=
  ∀ l : List Card, List.Perm (sh l) l

/-- The identity is one possible Fisher-Yates outcome (choosing `j = i` at
every iteration). -/
def idShuffle : List Card → List Card := fun l => l

theorem idShuffle_isShuffler : IsShuffler idShuffle := fun l => List.Perm.refl l

/-- One successful public operation (any of the six state-to-state operations,
with any shuffle outcome). -/
inductive Step : GameState → GameState → Prop where
  | playCardStep (s s2 : GameState) (pid : String) (c : Card) (col : Option Color)
      (sh : List Card → List Card) :
      IsShuffler sh → playCard s pid c col sh = .ok s2 → Step s s2
  | drawCardStep (s s2 : GameState) (pid : String) (sh : List Card → List Card) :
      IsShuffler sh → drawCard s pid sh = .ok s2 → Step s s2
  | playDrawnCardStep (s s2 : GameState) (pid : String) (col : Option Color)
      (sh : List Card → List Card) :
      IsShuffler sh → playDrawnCard s pid col sh = .ok s2 → Step s s2
  | passDrawnCardStep (s s2 : GameState) (pid : String) :
      passDrawnCard s pid = .ok s2 → Step s s2
  | callUnoPenaltyStep (s s2 : GameState) (tid : String) (cid : Option String)
      (sh : List Card → List Card) :
      IsShuffler sh → callUnoPenalty s tid cid sh = .ok s2 → Step s s2
  | callUnoSelfStep (s s2 : GameState) (pid : String) :
      callUnoSelf s pid = .ok s2 → Step s s2

/-- Like `Step`, but `drawCard` is only invoked when no pending drawn card is
outstanding (the limbo discipline the specification prescribes). -/
inductive StepD : GameState → GameState → Prop where
  | playCardStep (s s2 : GameState) (pid : String) (c : Card) (col : Option Color)
      (sh : List Card → List Card) :
      IsShuffler sh → playCard s pid c col sh = .ok s2 → StepD s s2
  | drawCardStep (s s2 : GameState) (pid : String) (sh : List Card → List Card) :
      IsShuffler sh → s.playableDrawnCard = none →
      drawCard s pid sh = .ok s2 → StepD s s2
  | playDrawnCardStep (s s2 : GameState) (pid : String) (col : Option Color)
      (sh : List Card → List Card) :
      IsShuffler sh → playDrawnCard s pid col sh = .ok s2 → StepD s s2
  | passDrawnCardStep (s s2 : GameState) (pid : String) :
      passDrawnCard s pid = .ok s2 → StepD s s2
  | callUnoPenaltyStep (s s2 : GameState) (tid : String) (cid : Option String)
      (sh : List Card → List Card) :
      IsShuffler sh → callUnoPenalty s tid cid sh = .ok s2 → StepD s s2
  | callUnoSelfStep (s s2 : GameState) (pid : String) :
      callUnoSelf s pid = .ok s2 → StepD s s2

/-- An initial state: produced by `createGameState` from some player list and
some shuffle of the real 108-card deck. -/
def InitState (s : GameState) : Prop :=
  ∃ (playerIds : List String) (deck : List Card) (sh : List Card → List Card),
    IsShuffler sh ∧ List.Perm deck createDeck ∧
    createGameState playerIds deck sh = .state s

/-- Reachable by any sequence of successful public operations. -/
def Reach (s : GameState) : Prop :=
  ∃ s0, InitState s0 ∧ Relation.ReflTransGen Step s0 s

/-- Reachable by successful public operations that respect the limbo
discipline (no `drawCard` while a pending drawn card is outstanding). -/
def ReachD (s : GameState) : Prop :=
  ∃ s0, InitState s0 ∧ Relation.ReflTransGen StepD s0 s

/-! ### Card-count measures -/

/-- Sum of all players' hand sizes. -/
def handsTotal (players : List Player) : Nat :=
  (players.map (fun p => p.hand.length)).sum

/-- Cards in the draw pile, the discard pile and all hands. -/
def totalCards (s : GameState) : Nat :=
  s.drawPile.length + s.discardPile.length + handsTotal s.players

/-- The pending drawn card (0 or 1 cards held in the limbo slot). -/
def pendingCount (s : GameState) : Nat :=
  match s.playableDrawnCard with
  | some _ => 1
  | none => 0

/-- Extract the state from a successful operation (junk on error). -/
def getOk : EngineResult → GameState
  | .ok s => s
  | .err _ =>
    { players := [], drawPile := [], discardPile := [], currentPlayerIndex := 0,
      directionOfPlay := 1, currentColor := none, isGameOver := false,
      winner := none, playableDrawnCard := none, unoPlayerId := none }

/-- Extract the state from a successful `createGameState` (junk otherwise). -/
def getState : CreateResult → GameState
  | .state s => s
  | _ =>
    { players := [], drawPile := [], discardPile := [], currentPlayerIndex := 0,
      directionOfPlay := 1, currentColor := none, isGameOver := false,
      winner := none, playableDrawnCard := none, unoPlayerId := none }

/-! ### Claim C1: card conservation -/

/-- The initial state of a two-player game whose shuffle happened to leave the
deck in `createDeck` order (a possible Fisher-Yates outcome). -/
def c1Init : GameState := getState (createGameState ["a", "b"] createDeck idShuffle)

/-- The state after player `a` draws: the drawn red 8 is playable against the
red 7 discard, so it is held in the limbo slot, outside all piles and hands. -/
def c1Limbo : GameState := getOk (drawCard c1Init "a" idShuffle)

/-- C1, counterexample: a state reachable from `createGameState` by one
successful `drawCard` in which the draw pile, discard pile and hands together
hold only 107 cards — the pending drawn card sits in the limbo slot, so the
claimed sum is not 108 in every reachable state. -/
theorem c1_conservation_counterexample :
    Reach c1Limbo ∧ totalCards c1Limbo ≠ 108 := by
  constructor
  · refine ⟨c1Init, ⟨["a", "b"], createDeck, idShuffle, idShuffle_isShuffler,
      List.Perm.refl _, by decide⟩, ?_⟩
    exact Relation.ReflTransGen.single
      (Step.drawCardStep c1Init c1Limbo "a" idShuffle idShuffle_isShuffler (by decide))
  · decide

instance : Inhabited Player := ⟨⟨"", [], none⟩⟩

/-! ### Concrete cards for hand-built states -/

/-- A colored number card. -/
def numCard (c : Color) (n : Nat) : Card := ⟨some c, .num n, .number⟩

/-- A colored draw-two card. -/
def draw2Card (c : Color) : Card := ⟨some c, .draw2, .action⟩

/-- A wild card as stored in the deck (color `null`). -/
def wildCard : Card := ⟨none, .wild, .wild⟩

/-- A wild-draw-four card as stored in the deck (color `null`). -/
def wildDraw4Card : Card := ⟨none, .wild_draw4, .wild⟩

/-! ### Claim C2: wild-draw-four gating -/

/-- Player `a` holds a red 5 (a non-wild card matching `currentColor = red`)
and a wild-draw-four; it is `a`'s turn. -/
def c2State : GameState :=
  { players := [⟨"a", [numCard .red 5, wildDraw4Card], none⟩,
                ⟨"b", [numCard .green 1], none⟩]
    drawPile := [numCard .yellow 1, numCard .yellow 2,
                 numCard .yellow 3, numCard .yellow 4]
    discardPile := [numCard .red 3]
    currentPlayerIndex := 0, directionOfPlay := 1, currentColor := some .red
    isGameOver := false, winner := none
    playableDrawnCard := none, unoPlayerId := none }

/-- The state the engine actually returns for that wild-draw-four play. -/
def c2Result : GameState :=
  getOk (playCard c2State "a" wildDraw4Card (some .blue) idShuffle)

/-- C2: the engine has no wild-draw-four hand scan — `playCard` accepts the
wild-draw-four even though the acting player's hand holds a non-wild card
(red 5) whose color equals `currentColor`, instead of failing with a tagged
error. The play succeeds and delivers the four-card penalty. -/
theorem c2_wild_draw_four_not_gated :
    (numCard .red 5) ∈ c2State.players.head!.hand ∧
    (numCard .red 5).type ≠ .wild ∧
    (numCard .red 5).color = c2State.currentColor ∧
    playCard c2State "a" wildDraw4Card (some .blue) idShuffle = .ok c2Result ∧
    c2Result.currentColor = some .blue := by
  decide

/-! ### Claim C3: limbo draw guard -/

/-- A limbo state: `a` already has a pending drawn card (a red 5, held in the
limbo slot and in no pile or hand). -/
def c3State : GameState :=
  { players := [⟨"a", [numCard .green 1, numCard .green 2], none⟩,
                ⟨"b", [numCard .green 4, numCard .green 5], none⟩]
    drawPile := [numCard .blue 3, numCard .blue 4]
    discardPile := [numCard .red 0]
    currentPlayerIndex := 0, directionOfPlay := 1, currentColor := some .red
    isGameOver := false, winner := none
    playableDrawnCard := some ⟨numCard .red 5, "a"⟩, unoPlayerId := none }

/-- The state `drawCard` actually returns from the limbo state. -/
def c3Result : GameState := getOk (drawCard c3State "a" idShuffle)

/-- C3: `drawCard` has no pending-draw guard — called on a state with a
pending drawn card outstanding it succeeds (the claim requires a tagged
failure), clears the limbo slot, and the pending red 5 vanishes: the piles,
hands and limbo slot together hold one card fewer than before. -/
theorem c3_draw_card_ignores_pending :
    c3State.playableDrawnCard ≠ none ∧
    drawCard c3State "a" idShuffle = .ok c3Result ∧
    c3Result.playableDrawnCard = none ∧
    totalCards c3Result + pendingCount c3Result + 1 =
      totalCards c3State + pendingCount c3State := by
  decide

/-! ### Claim C4: win-effect ordering -/

/-- Player `a` is about to win by playing a wild-draw-four as the last card
of a three-player game. -/
def c4State : GameState :=
  { players := [⟨"a", [wildDraw4Card], none⟩,
                ⟨"b", [numCard .green 1, numCard .green 2], none⟩,
                ⟨"c", [numCard .yellow 1], none⟩]
    drawPile := [numCard .blue 1, numCard .blue 2, numCard .blue 3,
                 numCard .blue 4, numCard .blue 5]
    discardPile := [numCard .red 3]
    currentPlayerIndex := 0, directionOfPlay := 1, currentColor := some .red
    isGameOver := false, winner := none
    playableDrawnCard := none, unoPlayerId := none }

/-- The state returned for the winning wild-draw-four. -/
def c4Result : GameState :=
  getOk (playCard c4State "a" wildDraw4Card (some .blue) idShuffle)

/-- C4, counterexample: on a winning wild-draw-four the win flags are set and
the effect still runs, but `currentPlayerIndex` IS advanced (from 0 to 2, the
two-step advance inside the wild-draw-four effect), contradicting the claim
that no turn advancement occurs on a winning move. -/
theorem c4_winning_move_advances_counterexample :
    playCard c4State "a" wildDraw4Card (some .blue) idShuffle = .ok c4Result ∧
    c4Result.isGameOver = true ∧
    c4Result.winner = some "a" ∧
    c4State.currentPlayerIndex = 0 ∧
    c4Result.currentPlayerIndex = 2 := by
  decide

/-! ### Claim C6: draw-two effect -/

/-- It is `a`'s turn with a playable red draw-two; the draw pile holds exactly
one card while the discard pile holds two. -/
def c6State : GameState :=
  { players := [⟨"a", [draw2Card .red, numCard .blue 9], none⟩,
                ⟨"b", [numCard .green 1, numCard .green 2], none⟩]
    drawPile := [numCard .yellow 3]
    discardPile := [numCard .red 0, numCard .red 5]
    currentPlayerIndex := 0, directionOfPlay := 1, currentColor := some .red
    isGameOver := false, winner := none
    playableDrawnCard := none, unoPlayerId := none }

/-- The state returned for that draw-two play. -/
def c6Result : GameState :=
  getOk (playCard c6State "a" (draw2Card .red) none idShuffle)

/-- C6: with one card in the draw pile and two in the discard pile, a
successful draw-two delivers only ONE card to the next player (hand grows
from 2 to 3, the draw pile empties, the discard pile is never reshuffled
because `reshuffleDiscardPile` returns unchanged whenever the draw pile is
nonempty), not the two cards the claim promises. -/
theorem c6_draw_two_underdelivers :
    c6State.drawPile.length = 1 ∧
    c6State.discardPile.length = 2 ∧
    playCard c6State "a" (draw2Card .red) none idShuffle = .ok c6Result ∧
    (c6Result.players.getLast!).hand.length = 3 ∧
    c6Result.drawPile.length = 0 ∧
    c6Result.discardPile.length = 3 := by
  decide

/-! ### Claim C8: turn validity -/

/-- Three players of which only `c` (index 2) is active; index 0 is the
current player and is inactive. -/
def c8State : GameState :=
  { players := [⟨"a", [], some false⟩, ⟨"b", [], some false⟩, ⟨"c", [], none⟩]
    drawPile := [], discardPile := [numCard .red 0]
    currentPlayerIndex := 0, directionOfPlay := 1, currentColor := some .red
    isGameOver := false, winner := none
    playableDrawnCard := none, unoPlayerId := none }

/-- C8, counterexample: with at least one active player (exactly one, at
index 2) and positive step count 3, `getNextPlayerIndex` exhausts its
`totalPlayers * 2` attempts bound and falls back to the unchanged current
index 0 — an INACTIVE player, and not the unique active one. -/
theorem c8_next_index_counterexample :
    activeAt c8State.players 2 = true ∧
    activeAt c8State.players 0 = false ∧
    getNextPlayerIndex c8State 3 = 0 := by
  decide

/-! ### Structural lemmas about the engine helpers -/

theorem cardMatcher_true_iff (cardToPlay c : Card) :
    cardMatcher cardToPlay c = true ↔ c = cardToPlay := by
  cases c
  cases cardToPlay
  simp [cardMatcher, and_assoc]

theorem findIdx?_cardMatcher (cardToPlay : Card) :
    ∀ (l : List Card) (i : Nat), l.findIdx? (cardMatcher cardToPlay) = some i →
      cardToPlay ∈ l ∧ i < l.length ∧ l.eraseIdx i = l.erase cardToPlay := by
  intro l
  induction l with
  | nil => intro i h; simp [List.findIdx?] at h
  | cons a t ih =>
    intro i h
    rw [List.findIdx?_cons] at h
    by_cases hpa : cardMatcher cardToPlay a = true
    · rw [if_pos hpa] at h
      injection h with h
      subst h
      have ha : a = cardToPlay := (cardMatcher_true_iff _ _).mp hpa
      subst ha
      exact ⟨List.mem_cons_self _ _, Nat.succ_pos _, (List.erase_cons_head a t).symm⟩
    · rw [if_neg hpa, List.findIdx?_succ] at h
      obtain ⟨j, hj, rfl⟩ := Option.map_eq_some'.mp h
      obtain ⟨hmem, hlt, herase⟩ := ih j hj
      have hne : (a == cardToPlay) = false := by
        have : ¬ a = cardToPlay := fun hh => hpa ((cardMatcher_true_iff _ _).mpr hh)
        simpa using this
      refine ⟨List.mem_cons_of_mem _ hmem, Nat.succ_lt_succ hlt, ?_⟩
      show a :: t.eraseIdx j = (a :: t).erase cardToPlay
      rw [List.erase_cons, hne, herase]
      simp

theorem findIdx?_cardMatcher_none (cardToPlay : Card) (l : List Card)
    (h : ∀ c ∈ l, ¬ c = cardToPlay) :
    l.findIdx? (cardMatcher cardToPlay) = none := by
  rw [List.findIdx?_eq_none_iff]
  intro c hc
  by_contra hb
  exact h c hc ((cardMatcher_true_iff _ _).mp (by revert hb; cases cardMatcher cardToPlay c <;> simp))

theorem modifyIdx_length (f : α → α) :
    ∀ (l : List α) (i : Nat), (modifyIdx l i f).length = l.length := by
  intro l
  induction l with
  | nil => intro i; rfl
  | cons a t ih =>
    intro i
    cases i with
    | zero => rfl
    | succ j => simpa [modifyIdx] using ih j

theorem modifyIdx_getElem?_self (f : α → α) :
    ∀ (l : List α) (i : Nat), (modifyIdx l i f)[i]? = l[i]?.map f := by
  intro l
  induction l with
  | nil => intro i; rfl
  | cons a t ih =>
    intro i
    cases i with
    | zero => simp [modifyIdx]
    | succ j => simpa [modifyIdx] using ih j

theorem modifyIdx_getElem?_ne (f : α → α) :
    ∀ (l : List α) (i j : Nat), i ≠ j → (modifyIdx l i f)[j]? = l[j]? := by
  intro l
  induction l with
  | nil => intro i j _; rfl
  | cons a t ih =>
    intro i j hij
    cases i with
    | zero =>
      cases j with
      | zero => exact absurd rfl hij
      | succ k => simp [modifyIdx]
    | succ i2 =>
      cases j with
      | zero => simp [modifyIdx]
      | succ k => simpa [modifyIdx] using ih i2 k (fun hh => hij (by rw [hh]))

theorem modifyIdx_map_field (f : α → α) (g : α → β)
    (hfg : ∀ a, g (f a) = g a) :
    ∀ (l : List α) (i : Nat), (modifyIdx l i f).map g = l.map g := by
  intro l
  induction l with
  | nil => intro i; rfl
  | cons a t ih =>
    intro i
    cases i with
    | zero => simp [modifyIdx, hfg]
    | succ j => simpa [modifyIdx] using ih j

theorem handsTotal_cons (p : Player) (t : List Player) :
    handsTotal (p :: t) = p.hand.length + handsTotal t := by
  simp [handsTotal]

theorem handsTotal_modifyIdx_push (cs : List Card) :
    ∀ (ps : List Player) (i : Nat), i < ps.length →
      handsTotal (modifyIdx ps i (fun p => { p with hand := p.hand ++ cs })) =
        handsTotal ps + cs.length := by
  intro ps
  induction ps with
  | nil => intro i h; simp at h
  | cons p t ih =>
    intro i hi
    cases i with
    | zero => simp [modifyIdx, handsTotal_cons]; omega
    | succ j =>
      have hj : j < t.length := by simpa using hi
      simp [modifyIdx, handsTotal_cons, ih j hj]
      omega

theorem handsTotal_modifyIdx_erase (k : Nat) :
    ∀ (ps : List Player) (i : Nat) (cp : Player), ps[i]? = some cp →
      k < cp.hand.length →
      handsTotal (modifyIdx ps i (fun p => { p with hand := p.hand.eraseIdx k })) + 1 =
        handsTotal ps := by
  intro ps
  induction ps with
  | nil => intro i cp h _; simp at h
  | cons p t ih =>
    intro i cp h hk
    cases i with
    | zero =>
      have hcp : p = cp := by simpa using h
      subst hcp
      have hlen : (p.hand.eraseIdx k).length = p.hand.length - 1 :=
        List.length_eraseIdx_of_lt hk
      simp [modifyIdx, handsTotal_cons, hlen]
      omega
    | succ j =>
      have hj : t[j]? = some cp := by simpa using h
      have := ih j cp hj hk
      simp [modifyIdx, handsTotal_cons]
      omega

theorem handsTotal_modifyFirst_push (cs : List Card) (pred : Player → Bool) :
    ∀ (ps : List Player), (∃ p ∈ ps, pred p = true) →
      handsTotal (modifyFirst ps pred (fun p => { p with hand := p.hand ++ cs })) =
        handsTotal ps + cs.length := by
  intro ps
  induction ps with
  | nil => intro h; simp at h
  | cons p t ih =>
    intro h
    by_cases hp : pred p = true
    · simp [modifyFirst, hp, handsTotal_cons]; omega
    · obtain ⟨q, hq, hpq⟩ := h
      rcases List.mem_cons.mp hq with rfl | hq2
      · exact absurd hpq hp
      · simp [modifyFirst, hp, handsTotal_cons, ih ⟨q, hq2, hpq⟩]
        omega

theorem modifyFirst_map_field (pred : α → Bool) (f : α → α) (g : α → β)
    (hfg : ∀ a, g (f a) = g a) :
    ∀ (l : List α), (modifyFirst l pred f).map g = l.map g := by
  intro l
  induction l with
  | nil => rfl
  | cons a t ih =>
    by_cases hp : pred a = true
    · simp [modifyFirst, hp, hfg]
    · simp [modifyFirst, hp, ih]

theorem modifyFirst_length (pred : α → Bool) (f : α → α) :
    ∀ (l : List α), (modifyFirst l pred f).length = l.length := by
  intro l
  induction l with
  | nil => rfl
  | cons a t ih =>
    by_cases hp : pred a = true
    · simp [modifyFirst, hp]
    · simp [modifyFirst, hp, ih]

theorem wrapIndex_lt (n : Nat) (i : Int) (hn : 1 ≤ n) : wrapIndex n i < n := by
  unfold wrapIndex
  split
  · omega
  · split
    · omega
    · rename_i h1 h2
      omega

theorem gnpiGo_zero_steps (ps : List Player) (dir : Int) (fuel idx att : Nat) :
    gnpiGo ps dir fuel idx 0 att = (idx, att) := by
  cases fuel <;> simp [gnpiGo]

theorem gnpiGo_fst_lt (ps : List Player) (dir : Int) (hn : 1 ≤ ps.length) :
    ∀ (fuel idx steps att : Nat), 1 ≤ steps → 1 ≤ fuel →
      (gnpiGo ps dir fuel idx steps att).1 < ps.length := by
  intro fuel
  induction fuel with
  | zero => intro idx steps att h1 h2; omega
  | succ f ih =>
    intro idx steps att hs _
    rw [gnpiGo]
    simp only [if_neg (by omega : ¬ steps = 0)]
    by_cases hs2 : (if activeAt ps (wrapIndex ps.length (idx + dir)) then steps - 1
        else steps) = 0
    · rw [hs2, gnpiGo_zero_steps]
      exact wrapIndex_lt _ _ hn
    · cases f with
      | zero =>
        rw [gnpiGo]
        simp only [if_neg hs2]
        exact wrapIndex_lt _ _ hn
      | succ f2 => exact ih _ _ _ (by omega) (by omega)

theorem getNextPlayerIndexFrom_lt (ps : List Player) (dir : Int) (cur steps : Nat)
    (hn : 1 ≤ ps.length) (hcur : cur < ps.length) (hs : 1 ≤ steps) :
    getNextPlayerIndexFrom ps dir cur steps < ps.length := by
  unfold getNextPlayerIndexFrom
  split
  · exact hcur
  · exact gnpiGo_fst_lt ps dir hn _ _ _ _ hs (by omega)

theorem playCard_ok_spec (s : GameState) (pid : String) (card : Card)
    (col : Option Color) (sh : List Card → List Card) (s2 : GameState)
    (h : playCard s pid card col sh = .ok s2) :
    ∃ (cp : Player) (cardIndex : Nat) (mid : GameState),
      s.isGameOver = false ∧
      s.playableDrawnCard = none ∧
      s.players[s.currentPlayerIndex]? = some cp ∧
      cp.id = pid ∧
      cp.hand.findIdx? (cardMatcher card) = some cardIndex ∧
      mid = { s with
                players := modifyIdx s.players s.currentPlayerIndex
                  (fun p => { p with hand := p.hand.eraseIdx cardIndex })
                discardPile := s.discardPile ++ [card]
                unoPlayerId := updateUnoFlag
                  (modifyIdx s.players s.currentPlayerIndex
                    (fun p => { p with hand := p.hand.eraseIdx cardIndex }))
                  pid s.unoPlayerId } ∧
      ((cp.hand.eraseIdx cardIndex = [] ∧
         s2 = applyCardEffect { mid with isGameOver := true, winner := some pid }
                card col sh) ∨
       (cp.hand.eraseIdx cardIndex ≠ [] ∧ card.type = .number ∧
         s2 = { applyCardEffect mid card col sh with
                  currentPlayerIndex :=
                    getNextPlayerIndex (applyCardEffect mid card col sh) 1 }) ∨
       (cp.hand.eraseIdx cardIndex ≠ [] ∧ card.type ≠ .number ∧
         s2 = applyCardEffect mid card col sh)) := by
  unfold playCard at h
  split at h
  · simp at h
  · rename_i hgo
    split at h
    · simp at h
    · rename_i hpdc
      split at h
      · simp at h
      · rename_i currentPlayer hcp
        split at h
        · simp at h
        · rename_i hid
          split at h
          · simp at h
          · rename_i cardIndex hfind
            split at h
            · simp at h
            · rename_i valid hvalid
              split at h
              · simp at h
              · rename_i hvalid2
                split at h
                · simp at h
                · rename_i hwildnone
                  split at h
                  · simp at h
                  · rename_i hwildok
                    have hid2 : currentPlayer.id = pid := not_ne_iff.mp hid
                    have hmod : (modifyIdx s.players s.currentPlayerIndex
                        (fun p => { p with hand := p.hand.eraseIdx cardIndex }))[s.currentPlayerIndex]? =
                        some { currentPlayer with
                                 hand := currentPlayer.hand.eraseIdx cardIndex } := by
                      rw [modifyIdx_getElem?_self, hcp]
                      rfl
                    dsimp only [] at h
                    rw [hmod] at h
                    dsimp only [] at h
                    refine ⟨currentPlayer, cardIndex, _, ?_, ?_, hcp, hid2, hfind, rfl, ?_⟩
                    · revert hgo
                      cases s.isGameOver <;> simp
                    · revert hpdc
                      cases hpd : s.playableDrawnCard <;> simp [hpd]
                    · by_cases hwin : checkWinner { currentPlayer with
                          hand := currentPlayer.hand.eraseIdx cardIndex } = true
                      · rw [if_pos hwin] at h
                        left
                        constructor
                        · have : (currentPlayer.hand.eraseIdx cardIndex).length = 0 := by
                            revert hwin
                            unfold checkWinner
                            simp
                          exact List.length_eq_zero.mp this
                        · injection h with hh
                          exact hh.symm
                      · rw [if_neg hwin] at h
                        have hne : currentPlayer.hand.eraseIdx cardIndex ≠ [] := by
                          intro hemp
                          apply hwin
                          unfold checkWinner
                          simp [hemp]
                        by_cases hnum : card.type = .number
                        · rw [if_pos hnum] at h
                          right; left
                          refine ⟨hne, hnum, ?_⟩
                          injection h with hh
                          exact hh.symm
                        · rw [if_neg hnum] at h
                          right; right
                          refine ⟨hne, hnum, ?_⟩
                          injection h with hh
                          exact hh.symm

theorem drawCard_ok_spec (s : GameState) (pid : String)
    (sh : List Card → List Card) (s2 : GameState)
    (h : drawCard s pid sh = .ok s2) :
    ∃ (cp : Player) (drawnCard : Card) (restPile : List Card),
      s.isGameOver = false ∧
      s.players[s.currentPlayerIndex]? = some cp ∧
      cp.id = pid ∧
      (if s.drawPile.length = 0 then reshuffleDiscardPile s sh else s).drawPile =
        drawnCard :: restPile ∧
      ∃ (isPlayable : Bool) (g : GameState),
        g = (if s.drawPile.length = 0 then reshuffleDiscardPile s sh else s) ∧
        isMoveValidTop drawnCard g.discardPile.getLast? g.currentColor =
          some isPlayable ∧
        ((isPlayable = true ∧
           s2 = { g with drawPile := restPile,
                         playableDrawnCard := some ⟨drawnCard, pid⟩ }) ∨
         (isPlayable = false ∧
           ∃ g2 : GameState,
             g2 = { g with drawPile := restPile,
                           players := modifyIdx g.players g.currentPlayerIndex
                             (fun p => { p with hand := p.hand ++ [drawnCard] }) } ∧
             s2 = { g2 with
                      unoPlayerId := if g2.unoPlayerId = some pid then none
                                     else g2.unoPlayerId
                      currentPlayerIndex := getNextPlayerIndexFrom g2.players
                        g2.directionOfPlay g2.currentPlayerIndex 1
                      playableDrawnCard := none })) := by
  unfold drawCard at h
  split at h
  · simp at h
  · rename_i hgo
    split at h
    · simp at h
    · rename_i currentPlayer hcp
      split at h
      · simp at h
      · rename_i hid
        generalize hG : (if s.drawPile.length = 0 then reshuffleDiscardPile s sh
          else s) = G at h ⊢
        dsimp only [] at h
        split at h
        · simp at h
        · rename_i drawnCard restPile hpile
          split at h
          · simp at h
          · rename_i isPlayable hmv
            refine ⟨currentPlayer, drawnCard, restPile, ?_,
              hcp, not_ne_iff.mp hid, hpile, isPlayable, _, rfl, hmv, ?_⟩
            · revert hgo
              cases s.isGameOver <;> simp
            · split at h
              · rename_i hp
                left
                refine ⟨hp, ?_⟩
                injection h with hh
                exact hh.symm
              · rename_i hp
                right
                refine ⟨by revert hp; cases isPlayable <;> simp, _, rfl, ?_⟩
                injection h with hh
                rw [← hh]
                rfl

theorem playDrawnCard_ok_spec (s : GameState) (pid : String) (col : Option Color)
    (sh : List Card → List Card) (s2 : GameState)
    (h : playDrawnCard s pid col sh = .ok s2) :
    ∃ (cp : Player) (pending : PendingDraw) (mid : GameState),
      s.isGameOver = false ∧
      s.players[s.currentPlayerIndex]? = some cp ∧
      cp.id = pid ∧
      s.playableDrawnCard = some pending ∧
      pending.playerId = pid ∧
      mid = { s with
                discardPile := s.discardPile ++ [pending.card]
                playableDrawnCard := none
                unoPlayerId := updateUnoFlag s.players pid s.unoPlayerId } ∧
      ((cp.hand = [] ∧
         s2 = applyCardEffect { mid with isGameOver := true, winner := some pid }
                pending.card col sh) ∨
       (cp.hand ≠ [] ∧ pending.card.type = .number ∧
         s2 = { applyCardEffect mid pending.card col sh with
                  currentPlayerIndex :=
                    getNextPlayerIndex (applyCardEffect mid pending.card col sh) 1 }) ∨
       (cp.hand ≠ [] ∧ pending.card.type ≠ .number ∧
         s2 = applyCardEffect mid pending.card col sh)) := by
  unfold playDrawnCard at h
  split at h
  · simp at h
  · rename_i hgo
    split at h
    · simp at h
    · rename_i currentPlayer hcp
      split at h
      · simp at h
      · rename_i hid
        split at h
        · simp at h
        · rename_i pending hpend
          split at h
          · simp at h
          · rename_i howner
            dsimp only [] at h
            split at h
            · simp at h
            · rename_i valid hvalid
              split at h
              · simp at h
              · rename_i hvalid2
                split at h
                · simp at h
                · rename_i hwildnone
                  split at h
                  · simp at h
                  · rename_i hwildok
                    have hpj : ({ s with
                        discardPile := s.discardPile ++ [pending.card]
                        playableDrawnCard := none
                        unoPlayerId := updateUnoFlag s.players pid
                          s.unoPlayerId } : GameState).players[s.currentPlayerIndex]? =
                        some currentPlayer := hcp
                    rw [hpj] at h
                    dsimp only [] at h
                    refine ⟨currentPlayer, pending, _, ?_, hcp, not_ne_iff.mp hid,
                      hpend, not_ne_iff.mp howner, rfl, ?_⟩
                    · revert hgo
                      cases s.isGameOver <;> simp
                    · by_cases hwin : checkWinner currentPlayer = true
                      · rw [if_pos hwin] at h
                        left
                        refine ⟨?_, ?_⟩
                        · have : currentPlayer.hand.length = 0 := by
                            revert hwin
                            unfold checkWinner
                            simp
                          exact List.length_eq_zero.mp this
                        · injection h with hh
                          exact hh.symm
                      · rw [if_neg hwin] at h
                        have hne : currentPlayer.hand ≠ [] := by
                          intro hemp
                          apply hwin
                          unfold checkWinner
                          simp [hemp]
                        by_cases hnum : pending.card.type = .number
                        · rw [if_pos hnum] at h
                          right; left
                          refine ⟨hne, hnum, ?_⟩
                          injection h with hh
                          exact hh.symm
                        · rw [if_neg hnum] at h
                          right; right
                          refine ⟨hne, hnum, ?_⟩
                          injection h with hh
                          exact hh.symm

theorem passDrawnCard_ok_spec (s : GameState) (pid : String) (s2 : GameState)
    (h : passDrawnCard s pid = .ok s2) :
    ∃ (cp : Player) (pending : PendingDraw) (g2 : GameState),
      s.isGameOver = false ∧
      s.players[s.currentPlayerIndex]? = some cp ∧
      cp.id = pid ∧
      s.playableDrawnCard = some pending ∧
      pending.playerId = pid ∧
      g2 = { s with
               players := modifyIdx s.players s.currentPlayerIndex
                 (fun p => { p with hand := p.hand ++ [pending.card] })
               unoPlayerId := if s.unoPlayerId = some pid then none
                              else s.unoPlayerId
               playableDrawnCard := none } ∧
      s2 = { g2 with
               currentPlayerIndex := getNextPlayerIndexFrom g2.players
                 g2.directionOfPlay g2.currentPlayerIndex 1 } := by
  unfold passDrawnCard at h
  split at h
  · simp at h
  · rename_i hgo
    split at h
    · simp at h
    · rename_i currentPlayer hcp
      split at h
      · simp at h
      · rename_i hid
        split at h
        · simp at h
        · rename_i pending hpend
          split at h
          · simp at h
          · rename_i howner
            refine ⟨currentPlayer, pending, _, ?_, hcp, not_ne_iff.mp hid,
              hpend, not_ne_iff.mp howner, rfl, ?_⟩
            · revert hgo
              cases s.isGameOver <;> simp
            · injection h with hh
              rw [← hh]
              rfl

theorem callUnoPenalty_ok_spec (s : GameState) (tid : String) (cid : Option String)
    (sh : List Card → List Card) (s2 : GameState)
    (h : callUnoPenalty s tid cid sh = .ok s2) :
    ∃ tp : Player,
      s.unoPlayerId = some tid ∧
      s.players.find? (fun p => decide (p.id = tid)) = some tp ∧
      tp.hand.length = 1 ∧
      s2 = { penaltyDrawOne (penaltyDrawOne s tid sh) tid sh with
               unoPlayerId := none } := by
  unfold callUnoPenalty at h
  split at h
  · simp at h
  · rename_i huno
    split at h
    · simp at h
    · rename_i targetPlayer hfind
      split at h
      · simp at h
      · rename_i hlen
        refine ⟨targetPlayer, not_ne_iff.mp huno, hfind, not_ne_iff.mp hlen, ?_⟩
        injection h with hh
        exact hh.symm

theorem callUnoSelf_ok_spec (s : GameState) (pid : String) (s2 : GameState)
    (h : callUnoSelf s pid = .ok s2) :
    ∃ p : Player,
      s.unoPlayerId = some pid ∧
      s.players.find? (fun q => decide (q.id = pid)) = some p ∧
      p.hand.length = 1 ∧
      s2 = { s with unoPlayerId := none } := by
  unfold callUnoSelf at h
  split at h
  · simp at h
  · rename_i huno
    split at h
    · simp at h
    · rename_i player hfind
      split at h
      · simp at h
      · rename_i hlen
        refine ⟨player, not_ne_iff.mp huno, hfind, not_ne_iff.mp hlen, ?_⟩
        injection h with hh
        exact hh.symm

theorem createGameState_state_spec (playerIds : List String) (deck : List Card)
    (sh : List Card → List Card) (s : GameState)
    (h : createGameState playerIds deck sh = .state s) :
    2 ≤ playerIds.length ∧ playerIds.length ≤ 10 ∧
    ∃ (first : Card) (rest : List Card) (firstCard : Card) (drawPile : List Card),
      (dealCards deck playerIds 7).2 = first :: rest ∧
      openingRotate (rest.length + 2) first rest = some (firstCard, drawPile) ∧
      ∃ base : GameState,
        base = { players := (dealCards deck playerIds 7).1
                 drawPile := drawPile
                 discardPile := [firstCard]
                 currentPlayerIndex := 0
                 directionOfPlay := 1
                 currentColor := firstCard.color
                 isGameOver := false
                 winner := none
                 playableDrawnCard := none
                 unoPlayerId := none } ∧
        ((firstCard.type = .action ∧ s = applyCardEffect base firstCard none sh) ∨
         (firstCard.type ≠ .action ∧ s = base)) := by
  unfold createGameState at h
  split at h
  · simp at h
  · rename_i hcount
    dsimp only [] at h
    split at h
    · simp at h
    · rename_i first rest hdeal
      split at h
      · simp at h
      · rename_i pr firstCard drawPile hrot
        refine ⟨by omega, by omega, first, rest, firstCard, drawPile, hdeal, hrot,
          _, rfl, ?_⟩
        split at h
        · rename_i hact
          left
          refine ⟨hact, ?_⟩
          injection h with hh
          exact hh.symm
        · rename_i hact
          right
          refine ⟨hact, ?_⟩
          injection h with hh
          exact hh.symm

/-! ### Conservation lemmas -/

theorem reshuffleDiscardPile_fields (g : GameState) (sh : List Card → List Card) :
    (reshuffleDiscardPile g sh).players = g.players ∧
    (reshuffleDiscardPile g sh).currentPlayerIndex = g.currentPlayerIndex ∧
    (reshuffleDiscardPile g sh).directionOfPlay = g.directionOfPlay ∧
    (reshuffleDiscardPile g sh).playableDrawnCard = g.playableDrawnCard ∧
    (reshuffleDiscardPile g sh).unoPlayerId = g.unoPlayerId ∧
    (reshuffleDiscardPile g sh).isGameOver = g.isGameOver ∧
    (reshuffleDiscardPile g sh).winner = g.winner := by
  unfold reshuffleDiscardPile
  split
  · exact ⟨rfl, rfl, rfl, rfl, rfl, rfl, rfl⟩
  · split
    · exact ⟨rfl, rfl, rfl, rfl, rfl, rfl, rfl⟩
    · split <;> exact ⟨rfl, rfl, rfl, rfl, rfl, rfl, rfl⟩

theorem reshuffleDiscardPile_pilesLen (g : GameState) (sh : List Card → List Card)
    (hsh : IsShuffler sh) :
    (reshuffleDiscardPile g sh).drawPile.length +
      (reshuffleDiscardPile g sh).discardPile.length =
      g.drawPile.length + g.discardPile.length := by
  unfold reshuffleDiscardPile
  split
  · rfl
  · split
    · rfl
    · split
      · rfl
      · rename_i hpos hlen topCard hlast
        have h1 := (hsh (g.discardPile.dropLast.map resetWildColor)).length_eq
        simp only [List.length_map, List.length_dropLast] at h1
        simp only [h1, List.length_dropLast, List.length_cons, List.length_nil]
        omega

theorem reshuffleDiscardPile_totalCards (g : GameState) (sh : List Card → List Card)
    (hsh : IsShuffler sh) :
    totalCards (reshuffleDiscardPile g sh) = totalCards g := by
  have hf := reshuffleDiscardPile_fields g sh
  have hp := reshuffleDiscardPile_pilesLen g sh hsh
  unfold totalCards
  rw [hf.1]
  omega

theorem applyCardEffect_spec (g : GameState) (card : Card) (col : Option Color)
    (sh : List Card → List Card) (hsh : IsShuffler sh)
    (hcur : g.currentPlayerIndex < g.players.length) :
    totalCards (applyCardEffect g card col sh) = totalCards g ∧
    (applyCardEffect g card col sh).playableDrawnCard = g.playableDrawnCard ∧
    (applyCardEffect g card col sh).players.length = g.players.length ∧
    (applyCardEffect g card col sh).currentPlayerIndex <
      (applyCardEffect g card col sh).players.length := by
  have hn : 1 ≤ g.players.length := by omega
  obtain ⟨cc, cv, ct⟩ := card
  cases cv with
  | skip =>
    refine ⟨rfl, rfl, rfl, ?_⟩
    exact getNextPlayerIndexFrom_lt _ _ _ _ hn hcur (by omega)
  | reverse =>
    unfold applyCardEffect
    dsimp only []
    split
    · exact ⟨rfl, rfl, rfl, getNextPlayerIndexFrom_lt _ _ _ _ hn hcur (by omega)⟩
    · exact ⟨rfl, rfl, rfl, getNextPlayerIndexFrom_lt _ _ _ _ hn hcur (by omega)⟩
  | wild =>
    refine ⟨rfl, rfl, rfl, ?_⟩
    exact getNextPlayerIndexFrom_lt _ _ _ _ hn hcur (by omega)
  | num n =>
    exact ⟨rfl, rfl, rfl, hcur⟩
  | draw2 =>
    unfold applyCardEffect
    dsimp only []
    generalize hG : (if ({ g with currentColor := cc } : GameState).drawPile.length < 2
        then reshuffleDiscardPile { g with currentColor := cc } sh
        else { g with currentColor := cc }) = G
    have hGfields : G.players = g.players ∧ G.currentPlayerIndex = g.currentPlayerIndex ∧
        G.playableDrawnCard = g.playableDrawnCard ∧
        G.drawPile.length + G.discardPile.length =
          g.drawPile.length + g.discardPile.length := by
      rw [← hG]
      split
      · have hf := reshuffleDiscardPile_fields { g with currentColor := cc } sh
        have hp := reshuffleDiscardPile_pilesLen { g with currentColor := cc } sh hsh
        exact ⟨hf.1, hf.2.1, hf.2.2.2.1, hp⟩
      · exact ⟨rfl, rfl, rfl, rfl⟩
    have hnext : getNextPlayerIndexFrom g.players g.directionOfPlay
        g.currentPlayerIndex 1 < g.players.length :=
      getNextPlayerIndexFrom_lt _ _ _ _ hn hcur (by omega)
    have hpush := handsTotal_modifyIdx_push
      (G.drawPile.take (min 2 G.drawPile.length)) G.players
      (getNextPlayerIndexFrom g.players g.directionOfPlay g.currentPlayerIndex 1)
      (by rw [hGfields.1]; exact hnext)
    rw [hGfields.1] at hpush
    have htake : (G.drawPile.take (min 2 G.drawPile.length)).length =
        min 2 G.drawPile.length := by
      simp [List.length_take]
    refine ⟨?_, ?_, ?_, ?_⟩
    · unfold totalCards
      simp only [getNextPlayerIndex]
      rw [hGfields.1, hpush, htake]
      simp only [List.length_drop]
      have := hGfields.2.2.2
      omega
    · exact hGfields.2.2.1
    · simp only [getNextPlayerIndex]
      rw [modifyIdx_length, hGfields.1]
    · simp only [getNextPlayerIndex]
      refine getNextPlayerIndexFrom_lt _ _ _ _ ?_ ?_ (by omega)
      · rw [modifyIdx_length, hGfields.1]
        omega
      · rw [modifyIdx_length, hGfields.1, hGfields.2.1]
        exact hcur
  | wild_draw4 =>
    unfold applyCardEffect
    dsimp only []
    generalize hG : (if g.drawPile.length < 4
        then reshuffleDiscardPile g sh else g) = G
    have hGfields : G.players = g.players ∧ G.currentPlayerIndex = g.currentPlayerIndex ∧
        G.playableDrawnCard = g.playableDrawnCard ∧
        G.drawPile.length + G.discardPile.length =
          g.drawPile.length + g.discardPile.length := by
      rw [← hG]
      split
      · have hf := reshuffleDiscardPile_fields g sh
        have hp := reshuffleDiscardPile_pilesLen g sh hsh
        exact ⟨hf.1, hf.2.1, hf.2.2.2.1, hp⟩
      · exact ⟨rfl, rfl, rfl, rfl⟩
    have hnext : getNextPlayerIndexFrom g.players g.directionOfPlay
        g.currentPlayerIndex 1 < g.players.length :=
      getNextPlayerIndexFrom_lt _ _ _ _ hn hcur (by omega)
    have hpush := handsTotal_modifyIdx_push
      (G.drawPile.take (min 4 G.drawPile.length)) G.players
      (getNextPlayerIndexFrom g.players g.directionOfPlay g.currentPlayerIndex 1)
      (by rw [hGfields.1]; exact hnext)
    rw [hGfields.1] at hpush
    have htake : (G.drawPile.take (min 4 G.drawPile.length)).length =
        min 4 G.drawPile.length := by
      simp [List.length_take]
    refine ⟨?_, ?_, ?_, ?_⟩
    · unfold totalCards
      simp only [getNextPlayerIndex]
      rw [hGfields.1, hpush, htake]
      simp only [List.length_drop]
      have := hGfields.2.2.2
      omega
    · exact hGfields.2.2.1
    · simp only [getNextPlayerIndex]
      rw [modifyIdx_length, hGfields.1]
    · simp only [getNextPlayerIndex]
      refine getNextPlayerIndexFrom_lt _ _ _ _ ?_ ?_ (by omega)
      · rw [modifyIdx_length, hGfields.1]
        omega
      · rw [modifyIdx_length, hGfields.1, hGfields.2.1]
        exact hcur

theorem exists_id_iff_mem_map (ps : List Player) (tid : String) :
    (∃ p ∈ ps, p.id = tid) ↔ tid ∈ ps.map Player.id := by
  simp [List.mem_map]

theorem penaltyDrawOne_spec (g : GameState) (tid : String)
    (sh : List Card → List Card) (hsh : IsShuffler sh)
    (hex : ∃ p ∈ g.players, p.id = tid) :
    totalCards (penaltyDrawOne g tid sh) = totalCards g ∧
    (penaltyDrawOne g tid sh).playableDrawnCard = g.playableDrawnCard ∧
    (penaltyDrawOne g tid sh).players.length = g.players.length ∧
    (penaltyDrawOne g tid sh).currentPlayerIndex = g.currentPlayerIndex ∧
    (∃ p ∈ (penaltyDrawOne g tid sh).players, p.id = tid) := by
  unfold penaltyDrawOne
  generalize hG : (if g.drawPile.length = 0 then reshuffleDiscardPile g sh else g) = G
  have hGf : G.players = g.players ∧ G.currentPlayerIndex = g.currentPlayerIndex ∧
      G.playableDrawnCard = g.playableDrawnCard ∧
      G.drawPile.length + G.discardPile.length =
        g.drawPile.length + g.discardPile.length := by
    rw [← hG]
    split
    · have hf := reshuffleDiscardPile_fields g sh
      have hp := reshuffleDiscardPile_pilesLen g sh hsh
      exact ⟨hf.1, hf.2.1, hf.2.2.2.1, hp⟩
    · exact ⟨rfl, rfl, rfl, rfl⟩
  have hexG : ∃ p ∈ G.players, p.id = tid := by rw [hGf.1]; exact hex
  dsimp only []
  split
  · refine ⟨?_, hGf.2.2.1, ?_, hGf.2.1, hexG⟩
    · unfold totalCards
      rw [hGf.1]
      have := hGf.2.2.2
      omega
    · rw [hGf.1]
  · rename_i c hlast
    have hne : G.drawPile ≠ [] := by
      intro hnil
      rw [hnil] at hlast
      simp at hlast
    have hd : 1 ≤ G.drawPile.length := by
      cases hp : G.drawPile with
      | nil => exact absurd hp hne
      | cons a t => simp [hp]
    have hpredex : ∃ p ∈ G.players, (fun p => decide (p.id = tid)) p = true := by
      obtain ⟨p, hp1, hp2⟩ := hexG
      exact ⟨p, hp1, by simp [hp2]⟩
    have hpush := handsTotal_modifyFirst_push [c]
      (fun p => decide (p.id = tid)) G.players hpredex
    have hids := modifyFirst_map_field (fun p => decide (p.id = tid))
      (fun p => { p with hand := p.hand ++ [c] }) Player.id (fun a => rfl) G.players
    refine ⟨?_, hGf.2.2.1, ?_, hGf.2.1, ?_⟩
    · unfold totalCards
      dsimp only []
      rw [hpush, hGf.1, List.length_dropLast]
      have := hGf.2.2.2
      simp only [List.length_cons, List.length_nil]
      omega
    · dsimp only []
      rw [modifyFirst_length, hGf.1]
    · rw [exists_id_iff_mem_map]
      dsimp only []
      rw [hids, hGf.1]
      rw [← exists_id_iff_mem_map]
      exact hex

theorem dealCards_players_length (k : Nat) :
    ∀ (ids : List String) (deck : List Card),
      ((dealCards deck ids k).1).length = ids.length := by
  intro ids
  induction ids with
  | nil => intro deck; rfl
  | cons i rest ih =>
    intro deck
    simpa [dealCards] using ih (deck.drop k)

theorem dealCards_conservation (k : Nat) :
    ∀ (ids : List String) (deck : List Card),
      handsTotal (dealCards deck ids k).1 + ((dealCards deck ids k).2).length =
        deck.length := by
  intro ids
  induction ids with
  | nil => intro deck; simp [dealCards, handsTotal]
  | cons i rest ih =>
    intro deck
    have := ih (deck.drop k)
    simp only [dealCards, handsTotal_cons]
    have htd : (deck.take k).length + (deck.drop k).length = deck.length := by
      simp [List.length_take, List.length_drop]
      omega
    omega

theorem openingRotate_perm :
    ∀ (fuel : Nat) (first : Card) (pile : List Card) (fc : Card) (dp : List Card),
      openingRotate fuel first pile = some (fc, dp) →
      List.Perm (fc :: dp) (first :: pile) := by
  intro fuel
  induction fuel with
  | zero =>
    intro first pile fc dp h
    unfold openingRotate at h
    by_cases hw : (first.type = CardType.wild ∨ first.type = CardType.action)
    · rw [if_pos hw] at h
      simp at h
    · rw [if_neg hw] at h
      injection h with h
      injection h with h1 h2
      subst h1
      subst h2
      exact List.Perm.refl _
  | succ fu ih =>
    intro first pile fc dp h
    unfold openingRotate at h
    by_cases hw : (first.type = CardType.wild ∨ first.type = CardType.action)
    · rw [if_pos hw] at h
      dsimp only [] at h
      cases hpf : pile ++ [first] with
      | nil =>
        rw [hpf] at h
        simp at h
      | cons c rest2 =>
        rw [hpf] at h
        have hperm := ih c rest2 fc dp h
        have h2 : (c :: rest2).Perm (first :: pile) := by
          rw [← hpf]
          exact List.perm_append_singleton first pile
        exact hperm.trans h2
    · rw [if_neg hw] at h
      injection h with h
      injection h with h1 h2
      subst h1
      subst h2
      exact List.Perm.refl _


/-- The inductive invariant carried along limbo-disciplined reachable states:
conservation counting the pending card, plus well-formedness of the current
index. -/
def EngineInv (s : GameState) : Prop :=
  totalCards s + pendingCount s = 108 ∧
  s.currentPlayerIndex < s.players.length ∧
  1 ≤ s.players.length

theorem createGameState_inv (ids : List String) (deck : List Card)
    (sh : List Card → List Card) (s : GameState) (hsh : IsShuffler sh)
    (hlen : deck.length = 108)
    (h : createGameState ids deck sh = .state s) : EngineInv s := by
  obtain ⟨h2, h10, first, rest, firstCard, drawPile, hdeal, hrot, base, hbase, hbr⟩ :=
    createGameState_state_spec ids deck sh s h
  have hplen : ((dealCards deck ids 7).1).length = ids.length :=
    dealCards_players_length 7 ids deck
  have hcons := dealCards_conservation 7 ids deck
  have hrperm := openingRotate_perm _ _ _ _ _ hrot
  have hrl : drawPile.length = rest.length := by
    have := hrperm.length_eq
    simp at this
    exact this
  have hbaseInv : EngineInv base := by
    rw [hbase]
    refine ⟨?_, ?_, ?_⟩
    · unfold totalCards pendingCount
      dsimp only []
      rw [hdeal] at hcons
      simp only [List.length_cons] at hcons
      simp only [List.length_cons, List.length_nil, hrl]
      omega
    · dsimp only []
      rw [hplen]
      omega
    · dsimp only []
      rw [hplen]
      omega
  rcases hbr with ⟨hact, rfl⟩ | ⟨hact, rfl⟩
  · have hspec := applyCardEffect_spec base firstCard none sh hsh hbaseInv.2.1
    refine ⟨?_, hspec.2.2.2, ?_⟩
    · rw [hspec.1]
      have hpend : pendingCount (applyCardEffect base firstCard none sh) =
          pendingCount base := by
        unfold pendingCount
        rw [hspec.2.1]
      rw [hpend]
      exact hbaseInv.1
    · rw [hspec.2.2.1]
      exact hbaseInv.2.2
  · exact hbaseInv

theorem pendingCount_congr (s t : GameState)
    (h : s.playableDrawnCard = t.playableDrawnCard) :
    pendingCount s = pendingCount t := by
  unfold pendingCount
  rw [h]

theorem effect_then_inv (mid : GameState) (card : Card) (col : Option Color)
    (sh : List Card → List Card) (hsh : IsShuffler sh)
    (hmCur : mid.currentPlayerIndex < mid.players.length)
    (hm1 : 1 ≤ mid.players.length)
    (hmTot : totalCards mid + pendingCount mid = 108) :
    EngineInv (applyCardEffect mid card col sh) ∧
    EngineInv { applyCardEffect mid card col sh with
                  currentPlayerIndex :=
                    getNextPlayerIndex (applyCardEffect mid card col sh) 1 } := by
  have hspec := applyCardEffect_spec mid card col sh hsh hmCur
  have hpend : pendingCount (applyCardEffect mid card col sh) = pendingCount mid :=
    pendingCount_congr _ _ hspec.2.1
  have hlen1 : 1 ≤ (applyCardEffect mid card col sh).players.length := by
    rw [hspec.2.2.1]
    exact hm1
  constructor
  · exact ⟨by rw [hspec.1, hpend]; exact hmTot, hspec.2.2.2, hlen1⟩
  · refine ⟨?_, ?_, ?_⟩
    · show totalCards (applyCardEffect mid card col sh) +
        pendingCount (applyCardEffect mid card col sh) = 108
      rw [hspec.1, hpend]
      exact hmTot
    · show getNextPlayerIndex (applyCardEffect mid card col sh) 1 <
        (applyCardEffect mid card col sh).players.length
      exact getNextPlayerIndexFrom_lt _ _ _ _ hlen1 hspec.2.2.2 (by omega)
    · exact hlen1

theorem playCard_inv (s : GameState) (pid : String) (card : Card)
    (col : Option Color) (sh : List Card → List Card) (s2 : GameState)
    (hsh : IsShuffler sh) (h : playCard s pid card col sh = .ok s2)
    (hinv : EngineInv s) : EngineInv s2 := by
  obtain ⟨cp, cardIndex, mid, hgo, hpd, hcp, hid, hfind, hmid, hbr⟩ :=
    playCard_ok_spec s pid card col sh s2 h
  obtain ⟨hmem, hlt, herase⟩ := findIdx?_cardMatcher card cp.hand cardIndex hfind
  have hErase := handsTotal_modifyIdx_erase cardIndex s.players
    s.currentPlayerIndex cp hcp hlt
  have hmidTotal : totalCards mid = totalCards s := by
    rw [hmid]
    unfold totalCards
    dsimp only []
    rw [List.length_append]
    simp only [List.length_cons, List.length_nil]
    omega
  have hmidPending : pendingCount mid = pendingCount s :=
    pendingCount_congr _ _ (by rw [hmid])
  have hmidCur : mid.currentPlayerIndex < mid.players.length := by
    rw [hmid]
    dsimp only []
    rw [modifyIdx_length]
    exact hinv.2.1
  have hmidLen : 1 ≤ mid.players.length := by
    rw [hmid]
    dsimp only []
    rw [modifyIdx_length]
    exact hinv.2.2
  have hmidTot : totalCards mid + pendingCount mid = 108 := by
    rw [hmidTotal, hmidPending]
    exact hinv.1
  rcases hbr with ⟨hemp, rfl⟩ | ⟨hne, hnum, rfl⟩ | ⟨hne, hnnum, rfl⟩
  · exact (effect_then_inv { mid with isGameOver := true, winner := some pid }
      card col sh hsh hmidCur hmidLen hmidTot).1
  · exact (effect_then_inv mid card col sh hsh hmidCur hmidLen hmidTot).2
  · exact (effect_then_inv mid card col sh hsh hmidCur hmidLen hmidTot).1

theorem playDrawnCard_inv (s : GameState) (pid : String)
    (col : Option Color) (sh : List Card → List Card) (s2 : GameState)
    (hsh : IsShuffler sh) (h : playDrawnCard s pid col sh = .ok s2)
    (hinv : EngineInv s) : EngineInv s2 := by
  obtain ⟨cp, pending, mid, hgo, hcp, hid, hpend, howner, hmid, hbr⟩ :=
    playDrawnCard_ok_spec s pid col sh s2 h
  have hsPend : pendingCount s = 1 := by
    unfold pendingCount
    rw [hpend]
  have hmidTotal : totalCards mid = totalCards s + 1 := by
    rw [hmid]
    unfold totalCards
    dsimp only []
    rw [List.length_append]
    simp only [List.length_cons, List.length_nil]
    omega
  have hmidPending : pendingCount mid = 0 := by
    unfold pendingCount
    rw [hmid]
  have hmidCur : mid.currentPlayerIndex < mid.players.length := by
    rw [hmid]
    exact hinv.2.1
  have hmidLen : 1 ≤ mid.players.length := by
    rw [hmid]
    exact hinv.2.2
  have hmidTot : totalCards mid + pendingCount mid = 108 := by
    rw [hmidTotal, hmidPending]
    have := hinv.1
    omega
  rcases hbr with ⟨hemp, rfl⟩ | ⟨hne, hnum, rfl⟩ | ⟨hne, hnnum, rfl⟩
  · exact (effect_then_inv { mid with isGameOver := true, winner := some pid }
      pending.card col sh hsh hmidCur hmidLen hmidTot).1
  · exact (effect_then_inv mid pending.card col sh hsh hmidCur hmidLen hmidTot).2
  · exact (effect_then_inv mid pending.card col sh hsh hmidCur hmidLen hmidTot).1

theorem drawCard_inv (s : GameState) (pid : String)
    (sh : List Card → List Card) (s2 : GameState)
    (hsh : IsShuffler sh) (hlimbo : s.playableDrawnCard = none)
    (h : drawCard s pid sh = .ok s2) (hinv : EngineInv s) : EngineInv s2 := by
  obtain ⟨cp, drawnCard, restPile, hgo, hcp, hid, hpile, isPlayable, G, hG, hmv, hbr⟩ :=
    drawCard_ok_spec s pid sh s2 h
  have hGf : G.players = s.players ∧ G.currentPlayerIndex = s.currentPlayerIndex ∧
      G.playableDrawnCard = s.playableDrawnCard ∧
      G.drawPile.length + G.discardPile.length =
        s.drawPile.length + s.discardPile.length := by
    rw [hG]
    split
    · have hf := reshuffleDiscardPile_fields s sh
      have hp := reshuffleDiscardPile_pilesLen s sh hsh
      exact ⟨hf.1, hf.2.1, hf.2.2.2.1, hp⟩
    · exact ⟨rfl, rfl, rfl, rfl⟩
  have hsPend : pendingCount s = 0 := by
    unfold pendingCount
    rw [hlimbo]
  have hGTotal : totalCards G = totalCards s := by
    unfold totalCards
    rw [hGf.1]
    have := hGf.2.2.2
    omega
  have hGlen : G.drawPile.length = restPile.length + 1 := by
    rw [← hG] at hpile
    rw [hpile]
    simp
  rcases hbr with ⟨hp, rfl⟩ | ⟨hp, g2, hg2, rfl⟩
  · refine ⟨?_, ?_, ?_⟩
    · unfold totalCards pendingCount
      dsimp only []
      unfold totalCards at hGTotal
      have hi := hinv.1
      unfold totalCards at hi
      rw [hsPend] at hi
      omega
    · dsimp only []
      rw [hGf.1, hGf.2.1]
      exact hinv.2.1
    · dsimp only []
      rw [hGf.1]
      exact hinv.2.2
  · have hg2Total : totalCards g2 = totalCards s := by
      rw [hg2]
      unfold totalCards
      dsimp only []
      rw [handsTotal_modifyIdx_push [drawnCard] G.players G.currentPlayerIndex
        (by rw [hGf.1, hGf.2.1]; exact hinv.2.1)]
      unfold totalCards at hGTotal
      simp only [List.length_cons, List.length_nil]
      omega
    have hg2Cur : g2.currentPlayerIndex < g2.players.length := by
      rw [hg2]
      dsimp only []
      rw [modifyIdx_length, hGf.1, hGf.2.1]
      exact hinv.2.1
    have hg2Len : 1 ≤ g2.players.length := by
      rw [hg2]
      dsimp only []
      rw [modifyIdx_length, hGf.1]
      exact hinv.2.2
    refine ⟨?_, ?_, ?_⟩
    · show totalCards g2 + pendingCount { g2 with
        unoPlayerId := if g2.unoPlayerId = some pid then none else g2.unoPlayerId
        currentPlayerIndex := getNextPlayerIndexFrom g2.players g2.directionOfPlay
          g2.currentPlayerIndex 1
        playableDrawnCard := none } = 108
      unfold pendingCount
      dsimp only []
      rw [hg2Total]
      have := hinv.1
      omega
    · show getNextPlayerIndexFrom g2.players g2.directionOfPlay
        g2.currentPlayerIndex 1 < g2.players.length
      exact getNextPlayerIndexFrom_lt _ _ _ _ hg2Len hg2Cur (by omega)
    · exact hg2Len

theorem passDrawnCard_inv (s : GameState) (pid : String) (s2 : GameState)
    (h : passDrawnCard s pid = .ok s2) (hinv : EngineInv s) : EngineInv s2 := by
  obtain ⟨cp, pending, g2, hgo, hcp, hid, hpend, howner, hg2, rfl⟩ :=
    passDrawnCard_ok_spec s pid s2 h
  have hsPend : pendingCount s = 1 := by
    unfold pendingCount
    rw [hpend]
  have hg2Total : totalCards g2 = totalCards s + 1 := by
    rw [hg2]
    unfold totalCards
    dsimp only []
    rw [handsTotal_modifyIdx_push [pending.card] s.players s.currentPlayerIndex
      hinv.2.1]
    simp only [List.length_cons, List.length_nil]
    omega
  have hg2Cur : g2.currentPlayerIndex < g2.players.length := by
    rw [hg2]
    dsimp only []
    rw [modifyIdx_length]
    exact hinv.2.1
  have hg2Len : 1 ≤ g2.players.length := by
    rw [hg2]
    dsimp only []
    rw [modifyIdx_length]
    exact hinv.2.2
  refine ⟨?_, ?_, ?_⟩
  · show totalCards g2 + pendingCount { g2 with
      currentPlayerIndex := getNextPlayerIndexFrom g2.players g2.directionOfPlay
        g2.currentPlayerIndex 1 } = 108
    have hg2Pend : pendingCount g2 = 0 := by
      unfold pendingCount
      rw [hg2]
    unfold pendingCount at hg2Pend ⊢
    dsimp only [] at hg2Pend ⊢
    rw [hg2Total]
    have := hinv.1
    omega
  · show getNextPlayerIndexFrom g2.players g2.directionOfPlay
      g2.currentPlayerIndex 1 < g2.players.length
    exact getNextPlayerIndexFrom_lt _ _ _ _ hg2Len hg2Cur (by omega)
  · exact hg2Len

theorem callUnoPenalty_inv (s : GameState) (tid : String) (cid : Option String)
    (sh : List Card → List Card) (s2 : GameState) (hsh : IsShuffler sh)
    (h : callUnoPenalty s tid cid sh = .ok s2) (hinv : EngineInv s) : EngineInv s2 := by
  obtain ⟨tp, huno, hfind, hlen, rfl⟩ := callUnoPenalty_ok_spec s tid cid sh s2 h
  have hex : ∃ p ∈ s.players, p.id = tid := by
    refine ⟨tp, List.mem_of_find?_eq_some hfind, ?_⟩
    have := List.find?_some hfind
    simpa using this
  have h1 := penaltyDrawOne_spec s tid sh hsh hex
  have h2 := penaltyDrawOne_spec (penaltyDrawOne s tid sh) tid sh hsh h1.2.2.2.2
  refine ⟨?_, ?_, ?_⟩
  · show totalCards (penaltyDrawOne (penaltyDrawOne s tid sh) tid sh) +
      pendingCount { penaltyDrawOne (penaltyDrawOne s tid sh) tid sh with
        unoPlayerId := none } = 108
    have hpend : pendingCount { penaltyDrawOne (penaltyDrawOne s tid sh) tid sh with
        unoPlayerId := none } = pendingCount s := by
      unfold pendingCount
      dsimp only []
      rw [h2.2.1, h1.2.1]
    rw [hpend, h2.1, h1.1]
    exact hinv.1
  · show (penaltyDrawOne (penaltyDrawOne s tid sh) tid sh).currentPlayerIndex <
      (penaltyDrawOne (penaltyDrawOne s tid sh) tid sh).players.length
    rw [h2.2.2.1, h1.2.2.1, h2.2.2.2.1, h1.2.2.2.1]
    exact hinv.2.1
  · show 1 ≤ (penaltyDrawOne (penaltyDrawOne s tid sh) tid sh).players.length
    rw [h2.2.2.1, h1.2.2.1]
    exact hinv.2.2

theorem callUnoSelf_inv (s : GameState) (pid : String) (s2 : GameState)
    (h : callUnoSelf s pid = .ok s2) (hinv : EngineInv s) : EngineInv s2 := by
  obtain ⟨p, huno, hfind, hlen, rfl⟩ := callUnoSelf_ok_spec s pid s2 h
  exact hinv

theorem stepD_preserves_inv (s s2 : GameState) (hst : StepD s s2)
    (hinv : EngineInv s) : EngineInv s2 := by
  cases hst with
  | playCardStep pid c col sh hsh hok => exact playCard_inv s pid c col sh s2 hsh hok hinv
  | drawCardStep pid sh hsh hlimbo hok => exact drawCard_inv s pid sh s2 hsh hlimbo hok hinv
  | playDrawnCardStep pid col sh hsh hok => exact playDrawnCard_inv s pid col sh s2 hsh hok hinv
  | passDrawnCardStep pid hok => exact passDrawnCard_inv s pid s2 hok hinv
  | callUnoPenaltyStep tid cid sh hsh hok => exact callUnoPenalty_inv s tid cid sh s2 hsh hok hinv
  | callUnoSelfStep pid hok => exact callUnoSelf_inv s pid s2 hok hinv

/-- C1, amended: counting the pending drawn card held in the limbo slot, every
state reachable by successful public operations that respect the limbo
discipline (no `drawCard` while a pending drawn card is outstanding) carries
exactly 108 cards across the draw pile, the discard pile, all hands and the
limbo slot.  (Without the discipline, a `drawCard` during limbo permanently
discards the pending card, as the counterexample shows; and the plain sum
omitting the limbo slot is 107 in limbo states.) -/
theorem c1_conservation_amended (s : GameState) (hreach : ReachD s) :
    totalCards s + pendingCount s = 108 := by
  obtain ⟨s0, ⟨ids, deck, sh, hsh, hperm, hcreate⟩, hsteps⟩ := hreach
  have h0 : EngineInv s0 :=
    createGameState_inv ids deck sh s0 hsh
      (by rw [hperm.length_eq]; decide) hcreate
  have hinv : EngineInv s := by
    induction hsteps with
    | refl => exact h0
    | tail hrt hst ih => exact stepD_preserves_inv _ _ hst ih
  exact hinv.1

/-- C1 witness: the amended conservation theorem applied to the concrete
reachable limbo state — 107 cards in piles and hands plus the one pending
drawn card. -/
theorem c1_conservation_amended_witness :
    totalCards c1Limbo + pendingCount c1Limbo = 108 :=
  c1_conservation_amended c1Limbo
    ⟨c1Init,
     ⟨["a", "b"], createDeck, idShuffle, idShuffle_isShuffler,
      List.Perm.refl _, by decide⟩,
     Relation.ReflTransGen.single
       (StepD.drawCardStep c1Init c1Limbo "a" idShuffle idShuffle_isShuffler
         (by decide) (by decide))⟩

theorem activeAt_congr (ps ps2 : List Player)
    (h : ps.map Player.isActive = ps2.map Player.isActive) (i : Nat) :
    activeAt ps i = activeAt ps2 i := by
  have h1 : ps[i]?.map Player.isActive = ps2[i]?.map Player.isActive := by
    rw [← List.getElem?_map, ← List.getElem?_map, h]
  unfold activeAt
  cases hp : ps[i]? with
  | none =>
    cases hp2 : ps2[i]? with
    | none => rfl
    | some q =>
      rw [hp, hp2] at h1
      simp at h1
  | some p =>
    cases hp2 : ps2[i]? with
    | none =>
      rw [hp, hp2] at h1
      simp at h1
    | some q =>
      rw [hp, hp2] at h1
      simp at h1
      simp [h1]

theorem players_length_eq_of_map_eq (ps ps2 : List Player)
    (h : ps.map Player.isActive = ps2.map Player.isActive) :
    ps.length = ps2.length := by
  have := congrArg List.length h
  simpa using this

theorem gnpiGo_congr (ps ps2 : List Player) (dir : Int)
    (h : ps.map Player.isActive = ps2.map Player.isActive) :
    ∀ (fuel idx steps att : Nat),
      gnpiGo ps dir fuel idx steps att = gnpiGo ps2 dir fuel idx steps att := by
  have hlen := players_length_eq_of_map_eq ps ps2 h
  intro fuel
  induction fuel with
  | zero => intro idx steps att; rw [gnpiGo, gnpiGo]
  | succ f ih =>
    intro idx steps att
    rw [gnpiGo, gnpiGo]
    by_cases hs : steps = 0
    · simp [hs]
    · simp only [if_neg hs]
      rw [hlen, activeAt_congr ps ps2 h]
      exact ih _ _ _

theorem getNextPlayerIndexFrom_congr (ps ps2 : List Player) (dir : Int)
    (cur steps : Nat)
    (h : ps.map Player.isActive = ps2.map Player.isActive) :
    getNextPlayerIndexFrom ps dir cur steps =
      getNextPlayerIndexFrom ps2 dir cur steps := by
  have hlen := players_length_eq_of_map_eq ps ps2 h
  unfold getNextPlayerIndexFrom
  rw [gnpiGo_congr ps ps2 dir h, hlen]

theorem applyCardEffect_flags (g : GameState) (card : Card) (col : Option Color)
    (sh : List Card → List Card) :
    (applyCardEffect g card col sh).isGameOver = g.isGameOver ∧
    (applyCardEffect g card col sh).winner = g.winner := by
  obtain ⟨cc, cv, ct⟩ := card
  cases cv with
  | skip => exact ⟨rfl, rfl⟩
  | wild => exact ⟨rfl, rfl⟩
  | num n => exact ⟨rfl, rfl⟩
  | reverse =>
    unfold applyCardEffect
    dsimp only []
    split
    · exact ⟨rfl, rfl⟩
    · exact ⟨rfl, rfl⟩
  | draw2 =>
    unfold applyCardEffect
    dsimp only []
    generalize hG : (if ({ g with currentColor := cc } : GameState).drawPile.length < 2
        then reshuffleDiscardPile { g with currentColor := cc } sh
        else { g with currentColor := cc }) = G
    have hGf : G.isGameOver = g.isGameOver ∧ G.winner = g.winner := by
      rw [← hG]
      split
      · have hf := reshuffleDiscardPile_fields { g with currentColor := cc } sh
        exact ⟨hf.2.2.2.2.2.1, hf.2.2.2.2.2.2⟩
      · exact ⟨rfl, rfl⟩
    exact hGf
  | wild_draw4 =>
    unfold applyCardEffect
    dsimp only []
    generalize hG : (if g.drawPile.length < 4
        then reshuffleDiscardPile g sh else g) = G
    have hGf : G.isGameOver = g.isGameOver ∧ G.winner = g.winner := by
      rw [← hG]
      split
      · have hf := reshuffleDiscardPile_fields g sh
        exact ⟨hf.2.2.2.2.2.1, hf.2.2.2.2.2.2⟩
      · exact ⟨rfl, rfl⟩
    exact hGf

theorem applyCardEffect_wd4 (g : GameState) (card : Card) (col : Option Color)
    (sh : List Card → List Card) (hv : card.value = .wild_draw4)
    (hlen : 4 ≤ g.drawPile.length) :
    applyCardEffect g card col sh =
      { g with
          players := modifyIdx g.players
            (getNextPlayerIndexFrom g.players g.directionOfPlay
              g.currentPlayerIndex 1)
            (fun p => { p with hand := p.hand ++ g.drawPile.take 4 })
          drawPile := g.drawPile.drop 4
          currentColor := col
          currentPlayerIndex := getNextPlayerIndexFrom
            (modifyIdx g.players
              (getNextPlayerIndexFrom g.players g.directionOfPlay
                g.currentPlayerIndex 1)
              (fun p => { p with hand := p.hand ++ g.drawPile.take 4 }))
            g.directionOfPlay g.currentPlayerIndex 2 } := by
  obtain ⟨cc, cv, ct⟩ := card
  cases cv <;> simp at hv
  unfold applyCardEffect
  dsimp only []
  rw [if_neg (by omega : ¬ g.drawPile.length < 4)]
  have hmin : min 4 g.drawPile.length = 4 := by omega
  rw [hmin]
  rfl

theorem winning_wd4_playCard (s : GameState) (pid : String) (card : Card)
    (col : Option Color) (sh : List Card → List Card) (s2 : GameState)
    (cp : Player)
    (hok : playCard s pid card col sh = .ok s2)
    (hcp : s.players[s.currentPlayerIndex]? = some cp)
    (hv : card.value = .wild_draw4)
    (hone : cp.hand.length = 1)
    (hdraw : 4 ≤ s.drawPile.length)
    (hne1 : getNextPlayerIndexFrom s.players s.directionOfPlay
      s.currentPlayerIndex 1 ≠ s.currentPlayerIndex) :
    s2.isGameOver = true ∧
    s2.winner = some pid ∧
    s2.currentColor = col ∧
    s2.currentPlayerIndex =
      getNextPlayerIndexFrom s.players s.directionOfPlay s.currentPlayerIndex 2 ∧
    (∀ tp : Player,
       s.players[getNextPlayerIndexFrom s.players s.directionOfPlay
         s.currentPlayerIndex 1]? = some tp →
       ∃ tp2 : Player,
         s2.players[getNextPlayerIndexFrom s.players s.directionOfPlay
           s.currentPlayerIndex 1]? = some tp2 ∧
         tp2.hand.length = tp.hand.length + 4) := by
  obtain ⟨cp2, cardIndex, mid, hgo, hpd, hcp2, hid, hfind, hmid, hbr⟩ :=
    playCard_ok_spec s pid card col sh s2 hok
  have hcpe : cp2 = cp := by
    rw [hcp] at hcp2
    injection hcp2 with hcc
    exact hcc.symm
  subst hcpe
  obtain ⟨a, ha⟩ := List.length_eq_one.mp hone
  have hidx := (findIdx?_cardMatcher card cp2.hand cardIndex hfind).2.1
  rw [ha] at hidx
  simp at hidx
  have herase : cp2.hand.eraseIdx cardIndex = [] := by
    rw [ha, hidx]
    rfl
  rcases hbr with ⟨hemp, hs2⟩ | ⟨hne, _, _⟩ | ⟨hne, _, _⟩
  · subst hmid
    dsimp only [] at hs2
    have hW := applyCardEffect_wd4
      { players := modifyIdx s.players s.currentPlayerIndex
          (fun p => { p with hand := p.hand.eraseIdx cardIndex })
        drawPile := s.drawPile
        discardPile := s.discardPile ++ [card]
        currentPlayerIndex := s.currentPlayerIndex
        directionOfPlay := s.directionOfPlay
        currentColor := s.currentColor
        isGameOver := true
        winner := some pid
        playableDrawnCard := s.playableDrawnCard
        unoPlayerId := updateUnoFlag
          (modifyIdx s.players s.currentPlayerIndex
            (fun p => { p with hand := p.hand.eraseIdx cardIndex }))
          pid s.unoPlayerId }
      card col sh hv hdraw
    rw [hW] at hs2
    dsimp only [] at hs2
    have hmapR : (modifyIdx s.players s.currentPlayerIndex
        (fun p => { p with hand := p.hand.eraseIdx cardIndex })).map
          Player.isActive = s.players.map Player.isActive :=
      modifyIdx_map_field (fun p => { p with hand := p.hand.eraseIdx cardIndex })
        Player.isActive (fun p => rfl) s.players s.currentPlayerIndex
    have hN1 : getNextPlayerIndexFrom (modifyIdx s.players s.currentPlayerIndex
        (fun p => { p with hand := p.hand.eraseIdx cardIndex }))
        s.directionOfPlay s.currentPlayerIndex 1 =
        getNextPlayerIndexFrom s.players s.directionOfPlay s.currentPlayerIndex 1 :=
      getNextPlayerIndexFrom_congr _ _ _ _ _ hmapR
    rw [hN1] at hs2
    rw [hs2]
    dsimp only []
    refine ⟨rfl, rfl, rfl, ?_, ?_⟩
    · have hmap2 : (modifyIdx (modifyIdx s.players s.currentPlayerIndex
          (fun p => { p with hand := p.hand.eraseIdx cardIndex }))
          (getNextPlayerIndexFrom s.players s.directionOfPlay
            s.currentPlayerIndex 1)
          (fun p => { p with hand := p.hand ++ s.drawPile.take 4 })).map
            Player.isActive = s.players.map Player.isActive := by
        rw [modifyIdx_map_field (fun p => { p with hand := p.hand ++ s.drawPile.take 4 })
          Player.isActive (fun p => rfl), hmapR]
      exact getNextPlayerIndexFrom_congr _ _ _ _ _ hmap2
    · intro tp htp
      refine ⟨{ tp with hand := tp.hand ++ s.drawPile.take 4 }, ?_, ?_⟩
      · rw [modifyIdx_getElem?_self]
        rw [modifyIdx_getElem?_ne _ _ _ _ (fun hh => hne1 hh.symm)]
        rw [htp]
        rfl
      · simp [List.length_take]
        omega
  · exact absurd herase hne
  · exact absurd herase hne

theorem winning_wd4_playDrawnCard (s : GameState) (pid : String)
    (col : Option Color) (sh : List Card → List Card) (s2 : GameState)
    (cp : Player) (pending : PendingDraw)
    (hok : playDrawnCard s pid col sh = .ok s2)
    (hcp : s.players[s.currentPlayerIndex]? = some cp)
    (hpend : s.playableDrawnCard = some pending)
    (hv : pending.card.value = .wild_draw4)
    (hempty : cp.hand = [])
    (hdraw : 4 ≤ s.drawPile.length)
    (hne1 : getNextPlayerIndexFrom s.players s.directionOfPlay
      s.currentPlayerIndex 1 ≠ s.currentPlayerIndex) :
    s2.isGameOver = true ∧
    s2.winner = some pid ∧
    s2.currentColor = col ∧
    s2.currentPlayerIndex =
      getNextPlayerIndexFrom s.players s.directionOfPlay s.currentPlayerIndex 2 ∧
    (∀ tp : Player,
       s.players[getNextPlayerIndexFrom s.players s.directionOfPlay
         s.currentPlayerIndex 1]? = some tp →
       ∃ tp2 : Player,
         s2.players[getNextPlayerIndexFrom s.players s.directionOfPlay
           s.currentPlayerIndex 1]? = some tp2 ∧
         tp2.hand.length = tp.hand.length + 4) := by
  obtain ⟨cp2, pending2, mid, hgo, hcp2, hid, hpend2, howner, hmid, hbr⟩ :=
    playDrawnCard_ok_spec s pid col sh s2 hok
  have hcpe : cp2 = cp := by
    rw [hcp] at hcp2
    injection hcp2 with hcc
    exact hcc.symm
  subst hcpe
  have hpe : pending2 = pending := by
    rw [hpend] at hpend2
    injection hpend2 with hcc
    exact hcc.symm
  subst hpe
  rcases hbr with ⟨hemp, hs2⟩ | ⟨hne, _, _⟩ | ⟨hne, _, _⟩
  · subst hmid
    dsimp only [] at hs2
    have hW := applyCardEffect_wd4
      { players := s.players
        drawPile := s.drawPile
        discardPile := s.discardPile ++ [pending2.card]
        currentPlayerIndex := s.currentPlayerIndex
        directionOfPlay := s.directionOfPlay
        currentColor := s.currentColor
        isGameOver := true
        winner := some pid
        playableDrawnCard := none
        unoPlayerId := updateUnoFlag s.players pid s.unoPlayerId }
      pending2.card col sh hv hdraw
    rw [hW] at hs2
    dsimp only [] at hs2
    rw [hs2]
    dsimp only []
    refine ⟨rfl, rfl, rfl, ?_, ?_⟩
    · have hmap2 : (modifyIdx s.players
          (getNextPlayerIndexFrom s.players s.directionOfPlay
            s.currentPlayerIndex 1)
          (fun p => { p with hand := p.hand ++ s.drawPile.take 4 })).map
            Player.isActive = s.players.map Player.isActive :=
        modifyIdx_map_field (fun p => { p with hand := p.hand ++ s.drawPile.take 4 })
          Player.isActive (fun p => rfl) s.players _
      exact getNextPlayerIndexFrom_congr _ _ _ _ _ hmap2
    · intro tp htp
      refine ⟨{ tp with hand := tp.hand ++ s.drawPile.take 4 }, ?_, ?_⟩
      · rw [modifyIdx_getElem?_self]
        rw [htp]
        rfl
      · simp [List.length_take]
        omega
  · exact absurd hempty hne
  · exact absurd hempty hne

theorem winning_playCard_general (s : GameState) (pid : String) (card : Card)
    (col : Option Color) (sh : List Card → List Card) (s2 : GameState)
    (cp : Player) (cardIndex : Nat)
    (hok : playCard s pid card col sh = .ok s2)
    (hcp : s.players[s.currentPlayerIndex]? = some cp)
    (hfind : cp.hand.findIdx? (cardMatcher card) = some cardIndex)
    (hone : cp.hand.length = 1) :
    s2.isGameOver = true ∧ s2.winner = some pid ∧
    s2 = applyCardEffect
      { s with
          players := modifyIdx s.players s.currentPlayerIndex
            (fun p => { p with hand := p.hand.eraseIdx cardIndex })
          discardPile := s.discardPile ++ [card]
          isGameOver := true
          winner := some pid
          unoPlayerId := updateUnoFlag
            (modifyIdx s.players s.currentPlayerIndex
              (fun p => { p with hand := p.hand.eraseIdx cardIndex }))
            pid s.unoPlayerId } card col sh := by
  obtain ⟨cp2, cardIndex2, mid, hgo, hpd, hcp2, hid, hfind2, hmid, hbr⟩ :=
    playCard_ok_spec s pid card col sh s2 hok
  have hcpe : cp2 = cp := by
    rw [hcp] at hcp2
    injection hcp2 with hcc
    exact hcc.symm
  subst hcpe
  rw [hfind] at hfind2
  injection hfind2 with hcie
  subst hcie
  obtain ⟨a, ha⟩ := List.length_eq_one.mp hone
  have hidx := (findIdx?_cardMatcher card cp2.hand cardIndex hfind).2.1
  rw [ha] at hidx
  simp at hidx
  have herase : cp2.hand.eraseIdx cardIndex = [] := by
    rw [ha, hidx]
    rfl
  rcases hbr with ⟨hemp, hs2⟩ | ⟨hne, _, _⟩ | ⟨hne, _, _⟩
  · subst hmid
    refine ⟨?_, ?_, ?_⟩
    · rw [hs2, (applyCardEffect_flags _ card col sh).1]
    · rw [hs2, (applyCardEffect_flags _ card col sh).2]
    · exact hs2
  · exact absurd herase hne
  · exact absurd herase hne

theorem winning_playDrawnCard_general (s : GameState) (pid : String)
    (col : Option Color) (sh : List Card → List Card) (s2 : GameState)
    (cp : Player) (pending : PendingDraw)
    (hok : playDrawnCard s pid col sh = .ok s2)
    (hcp : s.players[s.currentPlayerIndex]? = some cp)
    (hpend : s.playableDrawnCard = some pending)
    (hempty : cp.hand = []) :
    s2.isGameOver = true ∧ s2.winner = some pid ∧
    s2 = applyCardEffect
      { s with
          discardPile := s.discardPile ++ [pending.card]
          playableDrawnCard := none
          isGameOver := true
          winner := some pid
          unoPlayerId := updateUnoFlag s.players pid s.unoPlayerId }
      pending.card col sh := by
  obtain ⟨cp2, pending2, mid, hgo, hcp2, hid, hpend2, howner, hmid, hbr⟩ :=
    playDrawnCard_ok_spec s pid col sh s2 hok
  have hcpe : cp2 = cp := by
    rw [hcp] at hcp2
    injection hcp2 with hcc
    exact hcc.symm
  subst hcpe
  rw [hpend] at hpend2
  injection hpend2 with hpe
  subst hpe
  rcases hbr with ⟨hemp, hs2⟩ | ⟨hne, _, _⟩ | ⟨hne, _, _⟩
  · subst hmid
    refine ⟨?_, ?_, ?_⟩
    · rw [hs2, (applyCardEffect_flags _ pending.card col sh).1]
    · rw [hs2, (applyCardEffect_flags _ pending.card col sh).2]
    · exact hs2
  · exact absurd hempty hne
  · exact absurd hempty hne

theorem applyCardEffect_draw2 (g : GameState) (card : Card) (col : Option Color)
    (sh : List Card → List Card) (hv : card.value = .draw2)
    (hlen : 2 ≤ g.drawPile.length) :
    applyCardEffect g card col sh =
      { g with
          players := modifyIdx g.players
            (getNextPlayerIndexFrom g.players g.directionOfPlay
              g.currentPlayerIndex 1)
            (fun p => { p with hand := p.hand ++ g.drawPile.take 2 })
          drawPile := g.drawPile.drop 2
          currentColor := card.color
          currentPlayerIndex := getNextPlayerIndexFrom
            (modifyIdx g.players
              (getNextPlayerIndexFrom g.players g.directionOfPlay
                g.currentPlayerIndex 1)
              (fun p => { p with hand := p.hand ++ g.drawPile.take 2 }))
            g.directionOfPlay g.currentPlayerIndex 2 } := by
  obtain ⟨cc, cv, ct⟩ := card
  cases cv <;> simp at hv
  unfold applyCardEffect
  dsimp only []
  rw [if_neg (by omega : ¬ g.drawPile.length < 2)]
  have hmin : min 2 g.drawPile.length = 2 := by omega
  rw [hmin]
  rfl

theorem winning_draw2_playCard (s : GameState) (pid : String) (card : Card)
    (col : Option Color) (sh : List Card → List Card) (s2 : GameState)
    (cp : Player)
    (hok : playCard s pid card col sh = .ok s2)
    (hcp : s.players[s.currentPlayerIndex]? = some cp)
    (hv : card.value = .draw2)
    (hone : cp.hand.length = 1)
    (hdraw : 2 ≤ s.drawPile.length)
    (hne1 : getNextPlayerIndexFrom s.players s.directionOfPlay
      s.currentPlayerIndex 1 ≠ s.currentPlayerIndex) :
    s2.isGameOver = true ∧
    s2.winner = some pid ∧
    s2.currentColor = card.color ∧
    s2.currentPlayerIndex =
      getNextPlayerIndexFrom s.players s.directionOfPlay s.currentPlayerIndex 2 ∧
    (∀ tp : Player,
       s.players[getNextPlayerIndexFrom s.players s.directionOfPlay
         s.currentPlayerIndex 1]? = some tp →
       ∃ tp2 : Player,
         s2.players[getNextPlayerIndexFrom s.players s.directionOfPlay
           s.currentPlayerIndex 1]? = some tp2 ∧
         tp2.hand.length = tp.hand.length + 2) := by
  obtain ⟨cp2, cardIndex, mid, hgo, hpd, hcp2, hid, hfind, hmid, hbr⟩ :=
    playCard_ok_spec s pid card col sh s2 hok
  have hcpe : cp2 = cp := by
    rw [hcp] at hcp2
    injection hcp2 with hcc
    exact hcc.symm
  subst hcpe
  obtain ⟨a, ha⟩ := List.length_eq_one.mp hone
  have hidx := (findIdx?_cardMatcher card cp2.hand cardIndex hfind).2.1
  rw [ha] at hidx
  simp at hidx
  have herase : cp2.hand.eraseIdx cardIndex = [] := by
    rw [ha, hidx]
    rfl
  rcases hbr with ⟨hemp, hs2⟩ | ⟨hne, _, _⟩ | ⟨hne, _, _⟩
  · subst hmid
    dsimp only [] at hs2
    have hW := applyCardEffect_draw2
      { players := modifyIdx s.players s.currentPlayerIndex
          (fun p => { p with hand := p.hand.eraseIdx cardIndex })
        drawPile := s.drawPile
        discardPile := s.discardPile ++ [card]
        currentPlayerIndex := s.currentPlayerIndex
        directionOfPlay := s.directionOfPlay
        currentColor := s.currentColor
        isGameOver := true
        winner := some pid
        playableDrawnCard := s.playableDrawnCard
        unoPlayerId := updateUnoFlag
          (modifyIdx s.players s.currentPlayerIndex
            (fun p => { p with hand := p.hand.eraseIdx cardIndex }))
          pid s.unoPlayerId }
      card col sh hv hdraw
    rw [hW] at hs2
    dsimp only [] at hs2
    have hmapR : (modifyIdx s.players s.currentPlayerIndex
        (fun p => { p with hand := p.hand.eraseIdx cardIndex })).map
          Player.isActive = s.players.map Player.isActive :=
      modifyIdx_map_field (fun p => { p with hand := p.hand.eraseIdx cardIndex })
        Player.isActive (fun p => rfl) s.players s.currentPlayerIndex
    have hN1 : getNextPlayerIndexFrom (modifyIdx s.players s.currentPlayerIndex
        (fun p => { p with hand := p.hand.eraseIdx cardIndex }))
        s.directionOfPlay s.currentPlayerIndex 1 =
        getNextPlayerIndexFrom s.players s.directionOfPlay s.currentPlayerIndex 1 :=
      getNextPlayerIndexFrom_congr _ _ _ _ _ hmapR
    rw [hN1] at hs2
    rw [hs2]
    dsimp only []
    refine ⟨rfl, rfl, rfl, ?_, ?_⟩
    · have hmap2 : (modifyIdx (modifyIdx s.players s.currentPlayerIndex
          (fun p => { p with hand := p.hand.eraseIdx cardIndex }))
          (getNextPlayerIndexFrom s.players s.directionOfPlay
            s.currentPlayerIndex 1)
          (fun p => { p with hand := p.hand ++ s.drawPile.take 2 })).map
            Player.isActive = s.players.map Player.isActive := by
        rw [modifyIdx_map_field (fun p => { p with hand := p.hand ++ s.drawPile.take 2 })
          Player.isActive (fun p => rfl), hmapR]
      exact getNextPlayerIndexFrom_congr _ _ _ _ _ hmap2
    · intro tp htp
      refine ⟨{ tp with hand := tp.hand ++ s.drawPile.take 2 }, ?_, ?_⟩
      · rw [modifyIdx_getElem?_self]
        rw [modifyIdx_getElem?_ne _ _ _ _ (fun hh => hne1 hh.symm)]
        rw [htp]
        rfl
      · simp [List.length_take]
        omega
  · exact absurd herase hne
  · exact absurd herase hne

/-- A winning NUMBER-card play: a holds one red 5 and plays it. -/
def c4NumState : GameState :=
  { players := [⟨"a", [numCard .red 5], none⟩,
                ⟨"b", [numCard .blue 1, numCard .blue 2], none⟩]
    drawPile := [numCard .yellow 3, numCard .yellow 4]
    discardPile := [numCard .red 3]
    currentPlayerIndex := 0, directionOfPlay := 1, currentColor := some .red
    isGameOver := false, winner := none
    playableDrawnCard := none, unoPlayerId := none }

def c4NumResult : GameState :=
  getOk (playCard c4NumState "a" (numCard .red 5) none idShuffle)

/-- A winning draw-two play: a holds one red draw-two; three cards remain. -/
def c4Draw2State : GameState :=
  { players := [⟨"a", [draw2Card .red], none⟩,
                ⟨"b", [numCard .blue 1], none⟩]
    drawPile := [numCard .yellow 3, numCard .yellow 4, numCard .yellow 5]
    discardPile := [numCard .red 3]
    currentPlayerIndex := 0, directionOfPlay := 1, currentColor := some .red
    isGameOver := false, winner := none
    playableDrawnCard := none, unoPlayerId := none }

def c4Draw2Result : GameState :=
  getOk (playCard c4Draw2State "a" (draw2Card .red) none idShuffle)

/-- A winning `playDrawnCard`: a's hand is empty and the pending drawn red 5
is playable. -/
def c4LimboState : GameState :=
  { players := [⟨"a", [], none⟩,
                ⟨"b", [numCard .blue 1], none⟩]
    drawPile := [numCard .yellow 3]
    discardPile := [numCard .red 3]
    currentPlayerIndex := 0, directionOfPlay := 1, currentColor := some .red
    isGameOver := false, winner := none
    playableDrawnCard := some ⟨numCard .red 5, "a"⟩, unoPlayerId := none }

def c4LimboResult : GameState :=
  getOk (playDrawnCard c4LimboState "a" none idShuffle)

/-- C4, amended. (1)-(2): EVERY hand-emptying play — `playCard` with a
one-card hand, `playDrawnCard` with an empty hand — whatever the card kind,
returns exactly the card's effect applied to the win-flagged intermediate
state: `isGameOver` is true, `winner` is the acting player, the effect still
executes, and the number-card advancement appended after the effect is
skipped (the result IS the effect's output, with no extra index update).
(3)-(5): the penalty effects still deliver on a winning move — a winning
wild-draw-four (via either play path, 4 cards available, distinct next
player) gives the next player 4 cards, sets `currentColor` to the chosen
color and leaves `currentPlayerIndex` at the effect's own two-step advance,
not at the pre-play index; a winning draw-two (2 cards available) likewise
gives the next player 2 cards, sets `currentColor` to the card's color and
advances two steps. -/
theorem c4_win_effect_ordering_amended :
    (∀ (s : GameState) (pid : String) (card : Card) (col : Option Color)
       (sh : List Card → List Card) (s2 : GameState) (cp : Player)
       (cardIndex : Nat),
       playCard s pid card col sh = .ok s2 →
       s.players[s.currentPlayerIndex]? = some cp →
       cp.hand.findIdx? (cardMatcher card) = some cardIndex →
       cp.hand.length = 1 →
       s2.isGameOver = true ∧ s2.winner = some pid ∧
       s2 = applyCardEffect
         { s with
             players := modifyIdx s.players s.currentPlayerIndex
               (fun p => { p with hand := p.hand.eraseIdx cardIndex })
             discardPile := s.discardPile ++ [card]
             isGameOver := true
             winner := some pid
             unoPlayerId := updateUnoFlag
               (modifyIdx s.players s.currentPlayerIndex
                 (fun p => { p with hand := p.hand.eraseIdx cardIndex }))
               pid s.unoPlayerId } card col sh) ∧
    (∀ (s : GameState) (pid : String) (col : Option Color)
       (sh : List Card → List Card) (s2 : GameState) (cp : Player)
       (pending : PendingDraw),
       playDrawnCard s pid col sh = .ok s2 →
       s.players[s.currentPlayerIndex]? = some cp →
       s.playableDrawnCard = some pending →
       cp.hand = [] →
       s2.isGameOver = true ∧ s2.winner = some pid ∧
       s2 = applyCardEffect
         { s with
             discardPile := s.discardPile ++ [pending.card]
             playableDrawnCard := none
             isGameOver := true
             winner := some pid
             unoPlayerId := updateUnoFlag s.players pid s.unoPlayerId }
         pending.card col sh) ∧
    (∀ (s : GameState) (pid : String) (card : Card) (col : Option Color)
       (sh : List Card → List Card) (s2 : GameState) (cp : Player),
       playCard s pid card col sh = .ok s2 →
       s.players[s.currentPlayerIndex]? = some cp →
       card.value = .wild_draw4 →
       cp.hand.length = 1 →
       4 ≤ s.drawPile.length →
       getNextPlayerIndexFrom s.players s.directionOfPlay
         s.currentPlayerIndex 1 ≠ s.currentPlayerIndex →
       s2.isGameOver = true ∧
       s2.winner = some pid ∧
       s2.currentColor = col ∧
       s2.currentPlayerIndex = getNextPlayerIndexFrom s.players
         s.directionOfPlay s.currentPlayerIndex 2 ∧
       (∀ tp : Player,
          s.players[getNextPlayerIndexFrom s.players s.directionOfPlay
            s.currentPlayerIndex 1]? = some tp →
          ∃ tp2 : Player,
            s2.players[getNextPlayerIndexFrom s.players s.directionOfPlay
              s.currentPlayerIndex 1]? = some tp2 ∧
            tp2.hand.length = tp.hand.length + 4)) ∧
    (∀ (s : GameState) (pid : String) (col : Option Color)
       (sh : List Card → List Card) (s2 : GameState) (cp : Player)
       (pending : PendingDraw),
       playDrawnCard s pid col sh = .ok s2 →
       s.players[s.currentPlayerIndex]? = some cp →
       s.playableDrawnCard = some pending →
       pending.card.value = .wild_draw4 →
       cp.hand = [] →
       4 ≤ s.drawPile.length →
       getNextPlayerIndexFrom s.players s.directionOfPlay
         s.currentPlayerIndex 1 ≠ s.currentPlayerIndex →
       s2.isGameOver = true ∧
       s2.winner = some pid ∧
       s2.currentColor = col ∧
       s2.currentPlayerIndex = getNextPlayerIndexFrom s.players
         s.directionOfPlay s.currentPlayerIndex 2 ∧
       (∀ tp : Player,
          s.players[getNextPlayerIndexFrom s.players s.directionOfPlay
            s.currentPlayerIndex 1]? = some tp →
          ∃ tp2 : Player,
            s2.players[getNextPlayerIndexFrom s.players s.directionOfPlay
              s.currentPlayerIndex 1]? = some tp2 ∧
            tp2.hand.length = tp.hand.length + 4)) ∧
    (∀ (s : GameState) (pid : String) (card : Card) (col : Option Color)
       (sh : List Card → List Card) (s2 : GameState) (cp : Player),
       playCard s pid card col sh = .ok s2 →
       s.players[s.currentPlayerIndex]? = some cp →
       card.value = .draw2 →
       cp.hand.length = 1 →
       2 ≤ s.drawPile.length →
       getNextPlayerIndexFrom s.players s.directionOfPlay
         s.currentPlayerIndex 1 ≠ s.currentPlayerIndex →
       s2.isGameOver = true ∧
       s2.winner = some pid ∧
       s2.currentColor = card.color ∧
       s2.currentPlayerIndex = getNextPlayerIndexFrom s.players
         s.directionOfPlay s.currentPlayerIndex 2 ∧
       (∀ tp : Player,
          s.players[getNextPlayerIndexFrom s.players s.directionOfPlay
            s.currentPlayerIndex 1]? = some tp →
          ∃ tp2 : Player,
            s2.players[getNextPlayerIndexFrom s.players s.directionOfPlay
              s.currentPlayerIndex 1]? = some tp2 ∧
            tp2.hand.length = tp.hand.length + 2)) := by
  refine ⟨?_, ?_, ?_, ?_, ?_⟩
  · intro s pid card col sh s2 cp cardIndex hok hcp hfind hone
    exact winning_playCard_general s pid card col sh s2 cp cardIndex
      hok hcp hfind hone
  · intro s pid col sh s2 cp pending hok hcp hpend hempty
    exact winning_playDrawnCard_general s pid col sh s2 cp pending
      hok hcp hpend hempty
  · intro s pid card col sh s2 cp hok hcp hv hone hdraw hne1
    exact winning_wd4_playCard s pid card col sh s2 cp hok hcp hv hone hdraw hne1
  · intro s pid col sh s2 cp pending hok hcp hpend hv hempty hdraw hne1
    exact winning_wd4_playDrawnCard s pid col sh s2 cp pending hok hcp hpend hv
      hempty hdraw hne1
  · intro s pid card col sh s2 cp hok hcp hv hone hdraw hne1
    exact winning_draw2_playCard s pid card col sh s2 cp hok hcp hv hone
      hdraw hne1

set_option maxRecDepth 10000 in
set_option maxHeartbeats 2000000 in
/-- C4 witness: the amended theorem applied to four concrete winning plays:
a winning number card (clause 1), a winning play of a drawn number card
(clause 2), the three-player winning wild-draw-four (clause 3), and a
winning draw-two (clause 5). -/
theorem c4_win_effect_ordering_amended_witness :
    (c4NumResult.isGameOver = true ∧ c4NumResult.winner = some "a" ∧
     c4NumResult = applyCardEffect
       { c4NumState with
           players := modifyIdx c4NumState.players c4NumState.currentPlayerIndex
             (fun p => { p with hand := p.hand.eraseIdx 0 })
           discardPile := c4NumState.discardPile ++ [numCard .red 5]
           isGameOver := true
           winner := some "a"
           unoPlayerId := updateUnoFlag
             (modifyIdx c4NumState.players c4NumState.currentPlayerIndex
               (fun p => { p with hand := p.hand.eraseIdx 0 }))
             "a" c4NumState.unoPlayerId } (numCard .red 5) none idShuffle) ∧
    (c4LimboResult.isGameOver = true ∧ c4LimboResult.winner = some "a" ∧
     c4LimboResult = applyCardEffect
       { c4LimboState with
           discardPile := c4LimboState.discardPile ++ [numCard .red 5]
           playableDrawnCard := none
           isGameOver := true
           winner := some "a"
           unoPlayerId := updateUnoFlag c4LimboState.players "a"
             c4LimboState.unoPlayerId } (numCard .red 5) none idShuffle) ∧
    (c4Result.isGameOver = true ∧
     c4Result.winner = some "a" ∧
     c4Result.currentColor = some Color.blue ∧
     c4Result.currentPlayerIndex = getNextPlayerIndexFrom c4State.players
       c4State.directionOfPlay c4State.currentPlayerIndex 2 ∧
     (∀ tp : Player,
        c4State.players[getNextPlayerIndexFrom c4State.players
          c4State.directionOfPlay c4State.currentPlayerIndex 1]? = some tp →
        ∃ tp2 : Player,
          c4Result.players[getNextPlayerIndexFrom c4State.players
            c4State.directionOfPlay c4State.currentPlayerIndex 1]? = some tp2 ∧
          tp2.hand.length = tp.hand.length + 4)) ∧
    (c4Draw2Result.isGameOver = true ∧
     c4Draw2Result.winner = some "a" ∧
     c4Draw2Result.currentColor = some Color.red ∧
     c4Draw2Result.currentPlayerIndex = getNextPlayerIndexFrom
       c4Draw2State.players c4Draw2State.directionOfPlay
       c4Draw2State.currentPlayerIndex 2 ∧
     (∀ tp : Player,
        c4Draw2State.players[getNextPlayerIndexFrom c4Draw2State.players
          c4Draw2State.directionOfPlay c4Draw2State.currentPlayerIndex 1]? =
            some tp →
        ∃ tp2 : Player,
          c4Draw2Result.players[getNextPlayerIndexFrom c4Draw2State.players
            c4Draw2State.directionOfPlay
            c4Draw2State.currentPlayerIndex 1]? = some tp2 ∧
          tp2.hand.length = tp.hand.length + 2)) :=
  ⟨c4_win_effect_ordering_amended.1 c4NumState "a" (numCard .red 5) none
     idShuffle c4NumResult ⟨"a", [numCard .red 5], none⟩ 0
     (by decide) (by decide) (by decide) (by decide),
   c4_win_effect_ordering_amended.2.1 c4LimboState "a" none idShuffle
     c4LimboResult ⟨"a", [], none⟩ ⟨numCard .red 5, "a"⟩
     (by decide) (by decide) (by decide) (by decide),
   c4_win_effect_ordering_amended.2.2.1 c4State "a" wildDraw4Card (some .blue)
     idShuffle c4Result ⟨"a", [wildDraw4Card], none⟩
     (by decide) (by decide) (by decide) (by decide) (by decide) (by decide),
   c4_win_effect_ordering_amended.2.2.2.2 c4Draw2State "a" (draw2Card .red)
     none idShuffle c4Draw2Result ⟨"a", [draw2Card .red], none⟩
     (by decide) (by decide) (by decide) (by decide) (by decide) (by decide)⟩

/-! ### Claim C5: createGameState interface contract -/

theorem dealCards_drop (k : Nat) :
    ∀ (ids : List String) (deck : List Card),
      (dealCards deck ids k).2 = deck.drop (k * ids.length) := by
  intro ids
  induction ids with
  | nil => intro deck; simp [dealCards]
  | cons i rest ih =>
    intro deck
    show (dealCards (deck.drop k) rest k).2 = _
    rw [ih (deck.drop k), List.drop_drop]
    congr 1
    simp [Nat.mul_succ]
    omega

theorem openingRotate_succeeds :
    ∀ (k fuel : Nat) (first : Card) (pile : List Card) (c : Card),
      (first :: pile)[k]? = some c → c.type = .number → k + 1 ≤ fuel →
      ∃ r, openingRotate fuel first pile = some r := by
  intro k
  induction k with
  | zero =>
    intro fuel first pile c hk hnum _
    simp at hk
    subst hk
    unfold openingRotate
    rw [if_neg (by rw [hnum]; simp)]
    exact ⟨(first, pile), rfl⟩
  | succ k2 ih =>
    intro fuel first pile c hk hnum hfuel
    by_cases hw : (first.type = CardType.wild ∨ first.type = CardType.action)
    · obtain ⟨f2, rfl⟩ : ∃ f2, fuel = f2 + 1 := ⟨fuel - 1, by omega⟩
      have hkp : pile[k2]? = some c := by
        rw [← hk]
        simp
      have hklt : k2 < pile.length := by
        by_contra hge
        rw [List.getElem?_eq_none (by omega)] at hkp
        simp at hkp
      cases hpf : pile ++ [first] with
      | nil => simp at hpf
      | cons c2 rest2 =>
        have hk2 : (c2 :: rest2)[k2]? = some c := by
          rw [← hpf, List.getElem?_append]
          rw [if_pos hklt]
          exact hkp
        obtain ⟨r, hr⟩ := ih f2 c2 rest2 c hk2 hnum (by omega)
        refine ⟨r, ?_⟩
        unfold openingRotate
        rw [if_pos hw]
        have : (match f2 + 1 with
            | 0 => none
            | fu + 1 =>
              match pile ++ [first] with
              | [] => none
              | c :: rest => openingRotate fu c rest) =
            (match pile ++ [first] with
              | [] => none
              | c :: rest => openingRotate f2 c rest) := rfl
        rw [this, hpf]
        exact hr
    · unfold openingRotate
      rw [if_neg hw]
      exact ⟨(first, pile), rfl⟩

theorem createDeck_length : createDeck.length = 108 := by decide

theorem createDeck_nonNumber_count :
    (createDeck.filter (fun c => decide (c.type ≠ CardType.number))).length = 32 := by
  decide

/-- C5, counterexample: for an out-of-range player list `createGameState`
throws (`CreateResult.thrown` models the JS `throw new Error(...)`) instead of
returning a tagged failure value. -/
theorem c5_create_throws_counterexample :
    createGameState ["a"] createDeck idShuffle =
      .thrown "Game requires 2-10 players" ∧
    ∀ s : GameState, createGameState ["a"] createDeck idShuffle ≠ .state s := by
  refine ⟨rfl, fun s h => ?_⟩
  rw [show createGameState ["a"] createDeck idShuffle =
    .thrown "Game requires 2-10 players" from rfl] at h
  exact CreateResult.noConfusion h

/-- C5, amended: for 2 to 10 player ids and any shuffle of the real deck,
`createGameState` returns a game state; for any player count outside that
range it THROWS an exception (`Game requires 2-10 players`) rather than
returning a tagged failure value — `createGameState` is the one public
operation that throws for an expected rule violation. -/
theorem c5_create_contract_amended :
    (∀ (playerIds : List String) (deck : List Card) (sh : List Card → List Card),
       2 ≤ playerIds.length → playerIds.length ≤ 10 →
       List.Perm deck createDeck →
       ∃ s : GameState, createGameState playerIds deck sh = .state s) ∧
    (∀ (playerIds : List String) (deck : List Card) (sh : List Card → List Card),
       playerIds.length < 2 ∨ 10 < playerIds.length →
       createGameState playerIds deck sh =
         .thrown "Game requires 2-10 players") := by
  constructor
  · intro playerIds deck sh h2 h10 hperm
    have hdlen : deck.length = 108 := by
      rw [hperm.length_eq]
      exact createDeck_length
    have hrem := dealCards_drop 7 playerIds deck
    have hremlen : (deck.drop (7 * playerIds.length)).length =
        108 - 7 * playerIds.length := by
      rw [List.length_drop, hdlen]
    have hge : 38 ≤ (deck.drop (7 * playerIds.length)).length := by
      rw [hremlen]
      omega
    have hnumex : ∃ c ∈ deck.drop (7 * playerIds.length), c.type = .number := by
      by_contra hnone
      push_neg at hnone
      have hall : ∀ c ∈ deck.drop (7 * playerIds.length),
          (fun c => decide (c.type ≠ CardType.number)) c = true := by
        intro c hc
        simp [hnone c hc]
      have heq := List.filter_eq_self.mpr hall
      have hsub : List.Sublist
          ((deck.drop (7 * playerIds.length)).filter
            (fun c => decide (c.type ≠ CardType.number)))
          (deck.filter (fun c => decide (c.type ≠ CardType.number))) :=
        (List.drop_sublist _ _).filter _
      have hcnt : (deck.filter (fun c => decide (c.type ≠ CardType.number))).length
          = 32 := by
        rw [(hperm.filter _).length_eq]
        exact createDeck_nonNumber_count
      have := hsub.length_le
      rw [heq, hcnt] at this
      omega
    obtain ⟨c, hcmem, hcnum⟩ := hnumex
    obtain ⟨first, rest, hfr⟩ : ∃ first rest,
        deck.drop (7 * playerIds.length) = first :: rest := by
      cases hd : deck.drop (7 * playerIds.length) with
      | nil => rw [hd] at hge; simp at hge
      | cons a t => exact ⟨a, t, rfl⟩
    obtain ⟨k, hk, hke⟩ := List.mem_iff_getElem.mp hcmem
    have hk? : (first :: rest)[k]? = some c := by
      rw [← hfr, List.getElem?_eq_getElem hk, hke]
    have hkb : k + 1 ≤ rest.length + 2 := by
      rw [hfr] at hk
      simp at hk
      omega
    obtain ⟨⟨fc, dp⟩, hrot⟩ :=
      openingRotate_succeeds k (rest.length + 2) first rest c hk? hcnum hkb
    unfold createGameState
    rw [if_neg (by omega)]
    dsimp only []
    rw [hrem, hfr]
    dsimp only []
    rw [hrot]
    dsimp only []
    split
    · exact ⟨_, rfl⟩
    · exact ⟨_, rfl⟩
  · intro playerIds deck sh hout
    unfold createGameState
    rw [if_pos (by omega)]

/-- C5 witness: the amended contract applied to a valid two-player list and to
an invalid one-player list. -/
theorem c5_create_contract_amended_witness :
    (∃ s : GameState,
       createGameState ["a", "b"] createDeck idShuffle = .state s) ∧
    createGameState ["a"] createDeck idShuffle =
      .thrown "Game requires 2-10 players" :=
  ⟨c5_create_contract_amended.1 ["a", "b"] createDeck idShuffle (by decide)
     (by decide) (List.Perm.refl _),
   c5_create_contract_amended.2 ["a"] createDeck idShuffle (by decide)⟩

/-! ### Claim C10: hand matching in playCard -/

theorem applyCardEffect_players_nonpenalty (g : GameState) (card : Card)
    (col : Option Color) (sh : List Card → List Card)
    (h2 : card.value ≠ .draw2) (h4 : card.value ≠ .wild_draw4) :
    (applyCardEffect g card col sh).players = g.players := by
  obtain ⟨cc, cv, ct⟩ := card
  cases cv with
  | skip => rfl
  | wild => rfl
  | num n => rfl
  | reverse =>
    unfold applyCardEffect
    dsimp only []
    split
    · rfl
    · rfl
  | draw2 => exact absurd rfl h2
  | wild_draw4 => exact absurd rfl h4

/-- C10: `playCard` locates the card by strict equality of color, value and
type.  On success exactly one matching copy is removed from the acting hand
(the first one; duplicates are preserved), and a wild card argument carrying a
concrete color never matches the hand's wilds (stored with color `null`): such
a call fails with `Card not in hand`. -/
theorem c10_hand_matching :
    (∀ (s : GameState) (pid : String) (card : Card) (col : Option Color)
       (sh : List Card → List Card) (s2 : GameState) (cp : Player),
       s.players[s.currentPlayerIndex]? = some cp →
       playCard s pid card col sh = .ok s2 →
       card.value ≠ .draw2 →
       card.value ≠ .wild_draw4 →
       card ∈ cp.hand ∧
       s2.players[s.currentPlayerIndex]? =
         some { cp with hand := cp.hand.erase card }) ∧
    (∀ (s : GameState) (pid : String) (card : Card) (col : Option Color)
       (sh : List Card → List Card) (cp : Player),
       s.isGameOver = false →
       s.playableDrawnCard = none →
       s.players[s.currentPlayerIndex]? = some cp →
       cp.id = pid →
       card.type = .wild →
       card.color ≠ none →
       (∀ c ∈ cp.hand, c.type = .wild → c.color = none) →
       playCard s pid card col sh = .err "Card not in hand") := by
  constructor
  · intro s pid card col sh s2 cp hcp hok h2 h4
    obtain ⟨cp2, cardIndex, mid, hgo, hpd, hcp2, hid, hfind, hmid, hbr⟩ :=
      playCard_ok_spec s pid card col sh s2 hok
    have hcpe : cp2 = cp := by
      rw [hcp] at hcp2
      injection hcp2 with hcc
      exact hcc.symm
    subst hcpe
    obtain ⟨hmem, hlt, herase⟩ := findIdx?_cardMatcher card cp2.hand cardIndex hfind
    refine ⟨hmem, ?_⟩
    have hmidp : mid.players[s.currentPlayerIndex]? =
        some { cp2 with hand := cp2.hand.erase card } := by
      rw [hmid]
      dsimp only []
      rw [modifyIdx_getElem?_self, hcp, Option.map_some']
      rw [herase]
    rcases hbr with ⟨hemp, rfl⟩ | ⟨hne, hnum, rfl⟩ | ⟨hne, hnnum, rfl⟩
    · rw [applyCardEffect_players_nonpenalty _ _ _ _ h2 h4]
      exact hmidp
    · show (applyCardEffect mid card col sh).players[s.currentPlayerIndex]? = _
      rw [applyCardEffect_players_nonpenalty _ _ _ _ h2 h4]
      exact hmidp
    · rw [applyCardEffect_players_nonpenalty _ _ _ _ h2 h4]
      exact hmidp
  · intro s pid card col sh cp hgo hpd hcp hid hwild hcol hhand
    have hfind : cp.hand.findIdx? (cardMatcher card) = none := by
      refine findIdx?_cardMatcher_none card cp.hand ?_
      intro c hc he
      subst he
      exact hcol (hhand c hc hwild)
    unfold playCard
    rw [if_neg (by simp [hgo])]
    rw [if_neg (by simp [hpd] : ¬ s.playableDrawnCard.isSome = true)]
    rw [hcp]
    dsimp only []
    rw [if_neg (by simp [hid])]
    rw [hfind]

/-- A state for exercising the hand-matching rules: `a` holds two copies of
red 5 and one wild (stored with color `null`). -/
def c10State : GameState :=
  { players := [⟨"a", [numCard .red 5, numCard .red 5, wildCard], none⟩,
                ⟨"b", [numCard .green 1], none⟩]
    drawPile := [numCard .yellow 1]
    discardPile := [numCard .red 3]
    currentPlayerIndex := 0, directionOfPlay := 1, currentColor := some .red
    isGameOver := false, winner := none
    playableDrawnCard := none, unoPlayerId := none }

/-- The state after `a` plays one red 5. -/
def c10Result : GameState :=
  getOk (playCard c10State "a" (numCard .red 5) none idShuffle)

/-- C10 witness: one of the two red 5 copies is removed (the other copy and
the wild survive), and playing a wild argument carrying a concrete color
fails with `Card not in hand`. -/
theorem c10_hand_matching_witness :
    ((numCard .red 5) ∈
        (⟨"a", [numCard .red 5, numCard .red 5, wildCard], none⟩ : Player).hand ∧
      c10Result.players[c10State.currentPlayerIndex]? =
        some ⟨"a", [numCard .red 5, wildCard], none⟩) ∧
    playCard c10State "a" ⟨some .red, .wild, .wild⟩ (some .red) idShuffle =
      .err "Card not in hand" :=
  ⟨c10_hand_matching.1 c10State "a" (numCard .red 5) none idShuffle c10Result
     ⟨"a", [numCard .red 5, numCard .red 5, wildCard], none⟩
     (by decide) (by decide) (by decide) (by decide),
   c10_hand_matching.2 c10State "a" ⟨some .red, .wild, .wild⟩ (some .red)
     idShuffle ⟨"a", [numCard .red 5, numCard .red 5, wildCard], none⟩
     (by decide) (by decide) (by decide) (by decide) (by decide) (by decide)
     (by decide)⟩

/-! ### Claim C8: turn validity -/

theorem wrapIndex_step_one (n : Nat) (hn : 1 ≤ n) (w : Nat) (hw : w < n) :
    wrapIndex n ((w : Int) + 1) = (w + 1) % n := by
  unfold wrapIndex
  split
  · omega
  · split
    · rename_i h1 h2
      have he : w + 1 = n := by omega
      rw [he, Nat.mod_self]
    · rename_i h1 h2
      have hlt : w + 1 < n := by omega
      rw [Nat.mod_eq_of_lt hlt]
      omega

theorem wrapIndex_step_negone (n : Nat) (hn : 1 ≤ n) (w : Nat) (hw : w < n) :
    wrapIndex n ((w : Int) + (-1)) = (w + (n - 1)) % n := by
  unfold wrapIndex
  split
  · rename_i h1
    have hw0 : w = 0 := by omega
    rw [hw0]
    rw [Nat.mod_eq_of_lt (by omega : 0 + (n - 1) < n)]
    omega
  · split
    · rename_i h1 h2
      omega
    · rename_i h1 h2
      have h3 : w + (n - 1) = (w - 1) + n := by omega
      rw [h3, Nat.add_mod_right, Nat.mod_eq_of_lt (by omega : w - 1 < n)]
      omega

theorem surj_step (n d : Nat) (hn : 1 ≤ n) (hd : d = 1 ∨ d = n - 1) :
    ∀ idx i : Nat, idx < n → i < n →
      ∃ m, 1 ≤ m ∧ m ≤ n ∧ (idx + m * d) % n = i := by
  intro idx i hidx hi
  rcases hd with rfl | rfl
  · by_cases hlt : idx < i
    · refine ⟨i - idx, by omega, by omega, ?_⟩
      have he : idx + (i - idx) * 1 = i := by omega
      rw [he, Nat.mod_eq_of_lt hi]
    · refine ⟨n - (idx - i), by omega, by omega, ?_⟩
      have he : idx + (n - (idx - i)) * 1 = i + n := by omega
      rw [he, Nat.add_mod_right, Nat.mod_eq_of_lt hi]
  · by_cases hlt : i < idx
    · refine ⟨idx - i, by omega, by omega, ?_⟩
      have hkey : (idx - i) * (n - 1) + (idx - i) = (idx - i) * n := by
        have h1 : n - 1 + 1 = n := by omega
        calc (idx - i) * (n - 1) + (idx - i) = (idx - i) * ((n - 1) + 1) := by ring
          _ = (idx - i) * n := by rw [h1]
      have he : idx + (idx - i) * (n - 1) = i + (idx - i) * n := by omega
      rw [he, Nat.add_mul_mod_self_right, Nat.mod_eq_of_lt hi]
    · refine ⟨n - (i - idx), by omega, by omega, ?_⟩
      have hkey : (n - (i - idx)) * (n - 1) + (n - (i - idx)) = (n - (i - idx)) * n := by
        have h1 : n - 1 + 1 = n := by omega
        calc (n - (i - idx)) * (n - 1) + (n - (i - idx))
            = (n - (i - idx)) * ((n - 1) + 1) := by ring
          _ = (n - (i - idx)) * n := by rw [h1]
      have hkey2 : (n - (i - idx) - 1) * n + n = (n - (i - idx)) * n := by
        have h2 : (n - (i - idx) - 1) + 1 = n - (i - idx) := by omega
        calc (n - (i - idx) - 1) * n + n = ((n - (i - idx) - 1) + 1) * n := by ring
          _ = (n - (i - idx)) * n := by rw [h2]
      have he : idx + (n - (i - idx)) * (n - 1) = i + (n - (i - idx) - 1) * n := by
        omega
      rw [he, Nat.add_mul_mod_self_right, Nat.mod_eq_of_lt hi]

theorem gnpiGo_one_char (ps : List Player) (dir : Int) (d : Nat)
    (hstep : ∀ w, w < ps.length →
      wrapIndex ps.length ((w : Int) + dir) = (w + d) % ps.length)
    (hn : 1 ≤ ps.length) :
    ∀ (fuel idx att : Nat), idx < ps.length →
      (∃ m, 1 ≤ m ∧ m ≤ fuel ∧
        activeAt ps ((idx + m * d) % ps.length) = true) →
      ∃ m, 1 ≤ m ∧ m ≤ fuel ∧
        activeAt ps ((idx + m * d) % ps.length) = true ∧
        (∀ m2, 1 ≤ m2 → m2 < m →
          activeAt ps ((idx + m2 * d) % ps.length) = false) ∧
        gnpiGo ps dir fuel idx 1 att = ((idx + m * d) % ps.length, att + m) := by
  intro fuel
  induction fuel with
  | zero =>
    intro idx att hidx hex
    obtain ⟨m, h1, h2, _⟩ := hex
    exact absurd h2 (by omega)
  | succ f ih =>
    intro idx att hidx hex
    have htrans : ∀ m : Nat, ((idx + d) % ps.length + m * d) % ps.length =
        (idx + (m + 1) * d) % ps.length := by
      intro m
      rw [Nat.mod_add_mod]
      congr 1
      ring
    rw [gnpiGo]
    simp only [if_neg (by omega : ¬ (1 : Nat) = 0)]
    rw [hstep idx hidx]
    by_cases hact : activeAt ps ((idx + d) % ps.length) = true
    · refine ⟨1, le_refl 1, by omega, by rw [one_mul]; exact hact,
        by intro m2 hm2 hc; omega, ?_⟩
      rw [if_pos hact, gnpiGo_zero_steps, one_mul]
    · have hact' : activeAt ps ((idx + d) % ps.length) = false := by
        revert hact
        cases activeAt ps ((idx + d) % ps.length) <;> simp
      rw [if_neg (by rw [hact']; simp)]
      have hidx2 : (idx + d) % ps.length < ps.length := Nat.mod_lt _ (by omega)
      obtain ⟨m0, g1, g2, g3⟩ := hex
      have hm0ne : m0 ≠ 1 := by
        intro he
        rw [he, one_mul] at g3
        rw [g3] at hact'
        simp at hact'
      obtain ⟨m1, k1, k2, k3, k4, k5⟩ := ih ((idx + d) % ps.length) (att + 1) hidx2
        ⟨m0 - 1, by omega, by omega, by
          rw [htrans (m0 - 1), show m0 - 1 + 1 = m0 from by omega]
          exact g3⟩
      refine ⟨m1 + 1, by omega, by omega, ?_, ?_, ?_⟩
      · rw [← htrans m1]
        exact k3
      · intro m2 hm21 hm2lt
        by_cases hm2e : m2 = 1
        · rw [hm2e, one_mul]
          exact hact'
        · have := k4 (m2 - 1) (by omega) (by omega)
          rw [htrans (m2 - 1)] at this
          have hm2 : m2 - 1 + 1 = m2 := by omega
          rw [hm2] at this
          exact this
      · rw [k5, htrans m1]
        have : att + 1 + m1 = att + (m1 + 1) := by omega
        rw [this]

theorem gnpiGo_two_char (ps : List Player) (dir : Int) (d : Nat)
    (hstep : ∀ w, w < ps.length →
      wrapIndex ps.length ((w : Int) + dir) = (w + d) % ps.length)
    (hn : 1 ≤ ps.length) :
    ∀ (fuel idx att : Nat), idx < ps.length →
      (∃ m, 1 ≤ m ∧ m ≤ fuel ∧
        activeAt ps ((idx + m * d) % ps.length) = true) →
      ∃ m1, 1 ≤ m1 ∧ m1 ≤ fuel ∧
        activeAt ps ((idx + m1 * d) % ps.length) = true ∧
        (∀ m2, 1 ≤ m2 → m2 < m1 →
          activeAt ps ((idx + m2 * d) % ps.length) = false) ∧
        gnpiGo ps dir fuel idx 2 att =
          gnpiGo ps dir (fuel - m1) ((idx + m1 * d) % ps.length) 1 (att + m1) := by
  intro fuel
  induction fuel with
  | zero =>
    intro idx att hidx hex
    obtain ⟨m, h1, h2, _⟩ := hex
    exact absurd h2 (by omega)
  | succ f ih =>
    intro idx att hidx hex
    have htrans : ∀ m : Nat, ((idx + d) % ps.length + m * d) % ps.length =
        (idx + (m + 1) * d) % ps.length := by
      intro m
      rw [Nat.mod_add_mod]
      congr 1
      ring
    rw [gnpiGo]
    simp only [if_neg (by omega : ¬ (2 : Nat) = 0)]
    rw [hstep idx hidx]
    by_cases hact : activeAt ps ((idx + d) % ps.length) = true
    · refine ⟨1, le_refl 1, by omega, by rw [one_mul]; exact hact,
        by intro m2 hm2 hc; omega, ?_⟩
      rw [if_pos hact, one_mul]
      have hf : f + 1 - 1 = f := by omega
      rw [hf]
    · have hact' : activeAt ps ((idx + d) % ps.length) = false := by
        revert hact
        cases activeAt ps ((idx + d) % ps.length) <;> simp
      rw [if_neg (by rw [hact']; simp)]
      have hidx2 : (idx + d) % ps.length < ps.length := Nat.mod_lt _ (by omega)
      obtain ⟨m0, g1, g2, g3⟩ := hex
      have hm0ne : m0 ≠ 1 := by
        intro he
        rw [he, one_mul] at g3
        rw [g3] at hact'
        simp at hact'
      obtain ⟨m1, k1, k2, k3, k4, k5⟩ := ih ((idx + d) % ps.length) (att + 1) hidx2
        ⟨m0 - 1, by omega, by omega, by
          rw [htrans (m0 - 1), show m0 - 1 + 1 = m0 from by omega]
          exact g3⟩
      refine ⟨m1 + 1, by omega, by omega, ?_, ?_, ?_⟩
      · rw [← htrans m1]
        exact k3
      · intro m2 hm21 hm2lt
        by_cases hm2e : m2 = 1
        · rw [hm2e, one_mul]
          exact hact'
        · have := k4 (m2 - 1) (by omega) (by omega)
          rw [htrans (m2 - 1)] at this
          have hm2 : m2 - 1 + 1 = m2 := by omega
          rw [hm2] at this
          exact this
      · rw [k5, htrans m1]
        have h1 : att + 1 + m1 = att + (m1 + 1) := by omega
        have h2 : f - m1 = f + 1 - (m1 + 1) := by omega
        rw [h1, h2]

theorem getNextFrom_core_d (ps : List Player) (dir : Int) (d : Nat)
    (hstep : ∀ w, w < ps.length →
      wrapIndex ps.length ((w : Int) + dir) = (w + d) % ps.length)
    (hd : d = 1 ∨ d = ps.length - 1) (hn : 1 ≤ ps.length)
    (c steps : Nat) (hc : c < ps.length)
    (hact : ∃ i, i < ps.length ∧ activeAt ps i = true)
    (hsteps : steps = 1 ∨ steps = 2) :
    activeAt ps (getNextPlayerIndexFrom ps dir c steps) = true ∧
    getNextPlayerIndexFrom ps dir c steps < ps.length := by
  obtain ⟨iA, hiA, hiAact⟩ := hact
  have hitFrom : ∀ idx, idx < ps.length →
      ∃ m, 1 ≤ m ∧ m ≤ ps.length ∧
        activeAt ps ((idx + m * d) % ps.length) = true := by
    intro idx hidx
    obtain ⟨m, h1, h2, h3⟩ := surj_step ps.length d hn hd idx iA hidx hiA
    exact ⟨m, h1, h2, by rw [h3]; exact hiAact⟩
  rcases hsteps with rfl | rfl
  · obtain ⟨mb, gb1, gb2, gb3⟩ := hitFrom c hc
    obtain ⟨m, h1, h2, hpos, hmin, hgo⟩ :=
      gnpiGo_one_char ps dir d hstep hn (ps.length * 2) c 0 hc
        ⟨mb, gb1, by omega, gb3⟩
    have hmle : m ≤ ps.length := by
      by_contra hgt
      have := hmin mb gb1 (by omega)
      rw [this] at gb3
      simp at gb3
    unfold getNextPlayerIndexFrom
    rw [hgo]
    dsimp only []
    rw [if_neg (by omega : ¬ 0 + m ≥ ps.length * 2)]
    exact ⟨hpos, Nat.mod_lt _ (by omega)⟩
  · obtain ⟨mb, gb1, gb2, gb3⟩ := hitFrom c hc
    obtain ⟨m1, h11, h12, hpos1, hmin1, hgo2⟩ :=
      gnpiGo_two_char ps dir d hstep hn (ps.length * 2) c 0 hc
        ⟨mb, gb1, by omega, gb3⟩
    have hm1le : m1 ≤ ps.length := by
      by_contra hgt
      have := hmin1 mb gb1 (by omega)
      rw [this] at gb3
      simp at gb3
    have hidx1 : (c + m1 * d) % ps.length < ps.length := Nat.mod_lt _ (by omega)
    obtain ⟨mb2, gc1, gc2, gc3⟩ := hitFrom ((c + m1 * d) % ps.length) hidx1
    obtain ⟨m2, h21, h22, hpos2, hmin2, hgo1⟩ :=
      gnpiGo_one_char ps dir d hstep hn (ps.length * 2 - m1)
        ((c + m1 * d) % ps.length) (0 + m1) hidx1
        ⟨mb2, gc1, by omega, gc3⟩
    have hm2le : m2 ≤ ps.length := by
      by_contra hgt
      have := hmin2 mb2 gc1 (by omega)
      rw [this] at gc3
      simp at gc3
    unfold getNextPlayerIndexFrom
    rw [hgo2, hgo1]
    dsimp only []
    by_cases hfb : 0 + m1 + m2 ≥ ps.length * 2
    · rw [if_pos hfb]
      have hm1n : m1 = ps.length := by omega
      have hcpos : (c + m1 * d) % ps.length = c := by
        rw [hm1n, show c + ps.length * d = c + d * ps.length from by ring,
          Nat.add_mul_mod_self_right]
        exact Nat.mod_eq_of_lt hc
      rw [hcpos] at hpos1
      exact ⟨hpos1, hc⟩
    · rw [if_neg hfb]
      exact ⟨hpos2, Nat.mod_lt _ (by omega)⟩

theorem getNextFrom_core (ps : List Player) (dir : Int) (c steps : Nat)
    (hdir : dir = 1 ∨ dir = -1) (hc : c < ps.length)
    (hact : ∃ i, i < ps.length ∧ activeAt ps i = true)
    (hsteps : steps = 1 ∨ steps = 2) :
    activeAt ps (getNextPlayerIndexFrom ps dir c steps) = true ∧
    getNextPlayerIndexFrom ps dir c steps < ps.length := by
  have hn : 1 ≤ ps.length := by
    obtain ⟨i, hi, _⟩ := hact
    omega
  rcases hdir with rfl | rfl
  · exact getNextFrom_core_d ps 1 1
      (fun w hw => wrapIndex_step_one ps.length hn w hw)
      (Or.inl rfl) hn c steps hc hact hsteps
  · exact getNextFrom_core_d ps (-1) (ps.length - 1)
      (fun w hw => wrapIndex_step_negone ps.length hn w hw)
      (Or.inr rfl) hn c steps hc hact hsteps

theorem gnpiGo_all_inactive (ps : List Player) (dir : Int)
    (hin : ∀ i, activeAt ps i = false) :
    ∀ (fuel idx steps att : Nat), 1 ≤ steps →
      (gnpiGo ps dir fuel idx steps att).2 = att + fuel := by
  intro fuel
  induction fuel with
  | zero =>
    intro idx steps att hs
    rw [gnpiGo]
    simp only [if_neg (by omega : ¬ steps = 0)]
    omega
  | succ f ih =>
    intro idx steps att hs
    rw [gnpiGo]
    simp only [if_neg (by omega : ¬ steps = 0)]
    rw [if_neg (by rw [hin]; simp)]
    rw [ih _ steps _ hs]
    omega

/-- C8, amended: restricted to step counts 1 and 2 — the only step counts the
engine ever passes — `getNextPlayerIndex` always lands on an active player
(given a well-formed direction of ±1 and an in-range current index), and with
exactly one active player it returns that player's index; if all players are
inactive it returns the unchanged current index (for every step count).  For
step counts of 3 or more the `totalPlayers * 2` attempts bound can exhaust
and fall back to an inactive current index, as the counterexample shows. -/
theorem c8_turn_validity_amended :
    (∀ (s : GameState) (steps : Nat),
       (s.directionOfPlay = 1 ∨ s.directionOfPlay = -1) →
       s.currentPlayerIndex < s.players.length →
       (∃ i, i < s.players.length ∧ activeAt s.players i = true) →
       (steps = 1 ∨ steps = 2) →
       activeAt s.players (getNextPlayerIndex s steps) = true) ∧
    (∀ (s : GameState) (steps : Nat) (p : Nat),
       (s.directionOfPlay = 1 ∨ s.directionOfPlay = -1) →
       s.currentPlayerIndex < s.players.length →
       p < s.players.length →
       activeAt s.players p = true →
       (∀ i, i < s.players.length → activeAt s.players i = true → i = p) →
       (steps = 1 ∨ steps = 2) →
       getNextPlayerIndex s steps = p) ∧
    (∀ (s : GameState) (steps : Nat),
       (∀ i, activeAt s.players i = false) →
       getNextPlayerIndex s steps = s.currentPlayerIndex) := by
  refine ⟨?_, ?_, ?_⟩
  · intro s steps hdir hc hact hsteps
    exact (getNextFrom_core s.players s.directionOfPlay s.currentPlayerIndex
      steps hdir hc hact hsteps).1
  · intro s steps p hdir hc hp hpact huniq hsteps
    have hcore := getNextFrom_core s.players s.directionOfPlay
      s.currentPlayerIndex steps hdir hc ⟨p, hp, hpact⟩ hsteps
    exact huniq _ hcore.2 hcore.1
  · intro s steps hin
    unfold getNextPlayerIndex getNextPlayerIndexFrom
    by_cases hs : steps = 0
    · subst hs
      rw [gnpiGo_zero_steps]
      dsimp only []
      split
      · rfl
      · rfl
    · have h2 := gnpiGo_all_inactive s.players s.directionOfPlay hin
        (s.players.length * 2) s.currentPlayerIndex steps 0 (by omega)
      rw [if_pos (by rw [h2]; omega)]

/-- Three fully inactive players. -/
def c8AllInactive : GameState :=
  { players := [⟨"a", [], some false⟩, ⟨"b", [], some false⟩,
                ⟨"c", [], some false⟩]
    drawPile := [], discardPile := [numCard .red 0]
    currentPlayerIndex := 1, directionOfPlay := 1, currentColor := some .red
    isGameOver := false, winner := none
    playableDrawnCard := none, unoPlayerId := none }

/-- C8 witness: the amended theorem applied to the one-active-player state
(steps 1 and 2 land on the unique active player) and to the all-inactive
state (any step count returns the unchanged index). -/
theorem c8_turn_validity_amended_witness :
    activeAt c8State.players (getNextPlayerIndex c8State 1) = true ∧
    getNextPlayerIndex c8State 2 = 2 ∧
    getNextPlayerIndex c8AllInactive 5 = c8AllInactive.currentPlayerIndex :=
  ⟨c8_turn_validity_amended.1 c8State 1 (Or.inl rfl) (by decide)
     ⟨2, by decide, by decide⟩ (Or.inl rfl),
   c8_turn_validity_amended.2.1 c8State 2 2 (Or.inl rfl) (by decide) (by decide)
     (by decide) (by decide) (Or.inr rfl),
   c8_turn_validity_amended.2.2 c8AllInactive 5 (by
     intro i
     rcases i with _ | _ | _ | i4
     · decide
     · decide
     · decide
     · have hnone : c8AllInactive.players[i4 + 3]? = none :=
         List.getElem?_eq_none (by
           have hlen : c8AllInactive.players.length = 3 := rfl
           omega)
       unfold activeAt
       rw [hnone])⟩

/-! ### Claim C7: the vulnerability (UNO) flag -/

/-- `applyCardEffect` never touches `unoPlayerId`: no card effect clears or
sets the flag, including the draw-two / wild-draw-four penalty deliveries. -/
theorem applyCardEffect_uno (g : GameState) (card : Card) (col : Option Color)
    (sh : List Card → List Card) :
    (applyCardEffect g card col sh).unoPlayerId = g.unoPlayerId := by
  obtain ⟨cc, cv, ct⟩ := card
  cases cv with
  | skip => rfl
  | wild => rfl
  | num n => rfl
  | reverse =>
    unfold applyCardEffect
    dsimp only []
    split
    · rfl
    · rfl
  | draw2 =>
    unfold applyCardEffect
    dsimp only []
    generalize hG : (if ({ g with currentColor := cc } : GameState).drawPile.length < 2
        then reshuffleDiscardPile { g with currentColor := cc } sh
        else { g with currentColor := cc }) = G
    have hGf : G.unoPlayerId = g.unoPlayerId := by
      rw [← hG]
      split
      · exact (reshuffleDiscardPile_fields { g with currentColor := cc } sh).2.2.2.2.1
      · rfl
    exact hGf
  | wild_draw4 =>
    unfold applyCardEffect
    dsimp only []
    generalize hG : (if g.drawPile.length < 4
        then reshuffleDiscardPile g sh else g) = G
    have hGf : G.unoPlayerId = g.unoPlayerId := by
      rw [← hG]
      split
      · exact (reshuffleDiscardPile_fields g sh).2.2.2.2.1
      · rfl
    exact hGf

/-- The UNO-detection block returns `some pid` only through its set branch:
the player found by id holds exactly one card. -/
theorem updateUnoFlag_some (players : List Player) (pid : String)
    (old : Option String) (h : updateUnoFlag players pid old = some pid) :
    ∃ pw : Player,
      players.find? (fun p => decide (p.id = pid)) = some pw ∧
      pw.hand.length = 1 := by
  unfold updateUnoFlag at h
  cases hf : players.find? (fun p => decide (p.id = pid)) with
  | none =>
    rw [hf] at h
    dsimp only [] at h
    split at h
    · simp at h
    · rename_i hold
      exact absurd h hold
  | some pw =>
    rw [hf] at h
    dsimp only [] at h
    split at h
    · rename_i hlen
      exact ⟨pw, rfl, hlen⟩
    · split at h
      · simp at h
      · rename_i hold
        exact absurd h hold

/-- A 108-card deck (a permutation of `createDeck`) arranged so that a
two-player game reaches a flag-violating state: player a's opening hand,
player b's opening hand, the opening discard, a's six unplayable draws and
the two draw-two penalty cards come first. -/
def c7Prefix : List Card :=
  [draw2Card .red, numCard .green 0, numCard .green 1, numCard .green 1,
   numCard .green 2, numCard .green 2, numCard .green 3,
   numCard .red 1, numCard .red 2, numCard .red 3, numCard .red 4,
   numCard .red 5, numCard .red 6, numCard .blue 9,
   numCard .red 0,
   numCard .blue 7, numCard .blue 7, numCard .blue 8, numCard .blue 8,
   numCard .yellow 7, numCard .yellow 7,
   numCard .green 3, numCard .green 4]

def c7Deck : List Card := c7Prefix ++ (createDeck.diff c7Prefix)

def c7s0 : GameState := getState (createGameState ["a", "b"] c7Deck idShuffle)
def c7s1 : GameState := getOk (drawCard c7s0 "a" idShuffle)
def c7s2 : GameState := getOk (playCard c7s1 "b" (numCard .red 1) none idShuffle)
def c7s3 : GameState := getOk (drawCard c7s2 "a" idShuffle)
def c7s4 : GameState := getOk (playCard c7s3 "b" (numCard .red 2) none idShuffle)
def c7s5 : GameState := getOk (drawCard c7s4 "a" idShuffle)
def c7s6 : GameState := getOk (playCard c7s5 "b" (numCard .red 3) none idShuffle)
def c7s7 : GameState := getOk (drawCard c7s6 "a" idShuffle)
def c7s8 : GameState := getOk (playCard c7s7 "b" (numCard .red 4) none idShuffle)
def c7s9 : GameState := getOk (drawCard c7s8 "a" idShuffle)
def c7s10 : GameState := getOk (playCard c7s9 "b" (numCard .red 5) none idShuffle)
def c7s11 : GameState := getOk (drawCard c7s10 "a" idShuffle)
def c7s12 : GameState := getOk (playCard c7s11 "b" (numCard .red 6) none idShuffle)
def c7s13 : GameState := getOk (playCard c7s12 "a" (draw2Card .red) none idShuffle)

/-- C7 is violated as stated: `c7s13` is reachable from `createGameState` by
successful public operations, its vulnerability flag `unoPlayerId` names
player b, yet b's hand holds 3 cards, not exactly one. In the final step
player a's red draw-two delivered 2 penalty cards to vulnerable player b
(1 card -> 3 cards) without the flag being cleared or recomputed. -/
theorem c7_vulnerability_counterexample :
    Reach c7s13 ∧ c7s13.unoPlayerId = some "b" ∧
    (c7s13.players.map (fun p => (p.id, p.hand.length)))[1]? = some ("b", 3) := by
  refine ⟨⟨c7s0, ⟨["a", "b"], c7Deck, idShuffle, idShuffle_isShuffler,
    by decide, by decide⟩, ?_⟩, by decide, by decide⟩
  have t1 : Step c7s0 c7s1 :=
    Step.drawCardStep c7s0 c7s1 "a" idShuffle idShuffle_isShuffler (by decide)
  have t2 : Step c7s1 c7s2 :=
    Step.playCardStep c7s1 c7s2 "b" (numCard .red 1) none idShuffle
      idShuffle_isShuffler (by decide)
  have t3 : Step c7s2 c7s3 :=
    Step.drawCardStep c7s2 c7s3 "a" idShuffle idShuffle_isShuffler (by decide)
  have t4 : Step c7s3 c7s4 :=
    Step.playCardStep c7s3 c7s4 "b" (numCard .red 2) none idShuffle
      idShuffle_isShuffler (by decide)
  have t5 : Step c7s4 c7s5 :=
    Step.drawCardStep c7s4 c7s5 "a" idShuffle idShuffle_isShuffler (by decide)
  have t6 : Step c7s5 c7s6 :=
    Step.playCardStep c7s5 c7s6 "b" (numCard .red 3) none idShuffle
      idShuffle_isShuffler (by decide)
  have t7 : Step c7s6 c7s7 :=
    Step.drawCardStep c7s6 c7s7 "a" idShuffle idShuffle_isShuffler (by decide)
  have t8 : Step c7s7 c7s8 :=
    Step.playCardStep c7s7 c7s8 "b" (numCard .red 4) none idShuffle
      idShuffle_isShuffler (by decide)
  have t9 : Step c7s8 c7s9 :=
    Step.drawCardStep c7s8 c7s9 "a" idShuffle idShuffle_isShuffler (by decide)
  have t10 : Step c7s9 c7s10 :=
    Step.playCardStep c7s9 c7s10 "b" (numCard .red 5) none idShuffle
      idShuffle_isShuffler (by decide)
  have t11 : Step c7s10 c7s11 :=
    Step.drawCardStep c7s10 c7s11 "a" idShuffle idShuffle_isShuffler (by decide)
  have t12 : Step c7s11 c7s12 :=
    Step.playCardStep c7s11 c7s12 "b" (numCard .red 6) none idShuffle
      idShuffle_isShuffler (by decide)
  have t13 : Step c7s12 c7s13 :=
    Step.playCardStep c7s12 c7s13 "a" (draw2Card .red) none idShuffle
      idShuffle_isShuffler (by decide)
  exact ((((((((((((Relation.ReflTransGen.single t1).tail t2).tail t3).tail
    t4).tail t5).tail t6).tail t7).tail t8).tail t9).tail t10).tail
    t11).tail t12).tail t13

/-- C7 amended: the flag discipline the code actually maintains. (1) A
successful `playCard` leaves the flag on the acting player only when the
find-by-id player held exactly one card immediately after the played card
was removed and before any penalty delivery; (2) likewise for
`playDrawnCard` (whose acting player's hand is unchanged by the play); (3) a
successful keep-branch `drawCard` (no pending card left) never leaves the
flag on the drawing player; (4) neither does `passDrawnCard`; (5)
`callUnoPenalty` and (6) `callUnoSelf` always clear the flag. Card effects
themselves (`applyCardEffect`) never recompute the flag, which is why the
penalty delivery in `c7_vulnerability_counterexample` leaves it stale. -/
theorem c7_vulnerability_amended :
    (∀ (s : GameState) (pid : String) (card : Card) (col : Option Color)
       (sh : List Card → List Card) (s2 : GameState),
       playCard s pid card col sh = .ok s2 → s2.unoPlayerId = some pid →
       ∃ (cp : Player) (cardIndex : Nat) (pw : Player),
         s.players[s.currentPlayerIndex]? = some cp ∧ cp.id = pid ∧
         cp.hand.findIdx? (cardMatcher card) = some cardIndex ∧
         (modifyIdx s.players s.currentPlayerIndex
           (fun p => { p with hand := p.hand.eraseIdx cardIndex })).find?
             (fun p => decide (p.id = pid)) = some pw ∧
         pw.hand.length = 1) ∧
    (∀ (s : GameState) (pid : String) (col : Option Color)
       (sh : List Card → List Card) (s2 : GameState),
       playDrawnCard s pid col sh = .ok s2 → s2.unoPlayerId = some pid →
       ∃ pw : Player,
         s.players.find? (fun p => decide (p.id = pid)) = some pw ∧
         pw.hand.length = 1) ∧
    (∀ (s : GameState) (pid : String) (sh : List Card → List Card)
       (s2 : GameState),
       drawCard s pid sh = .ok s2 → s2.playableDrawnCard = none →
       s2.unoPlayerId ≠ some pid) ∧
    (∀ (s : GameState) (pid : String) (s2 : GameState),
       passDrawnCard s pid = .ok s2 → s2.unoPlayerId ≠ some pid) ∧
    (∀ (s : GameState) (tid : String) (cid : Option String)
       (sh : List Card → List Card) (s2 : GameState),
       callUnoPenalty s tid cid sh = .ok s2 → s2.unoPlayerId = none) ∧
    (∀ (s : GameState) (pid : String) (s2 : GameState),
       callUnoSelf s pid = .ok s2 → s2.unoPlayerId = none) := by
  refine ⟨?_, ?_, ?_, ?_, ?_, ?_⟩
  · intro s pid card col sh s2 hok huno
    obtain ⟨cp, cardIndex, mid, _, _, hcp, hid, hfind, hmid, hbr⟩ :=
      playCard_ok_spec s pid card col sh s2 hok
    have hmu : s2.unoPlayerId = mid.unoPlayerId := by
      rcases hbr with ⟨_, hs2⟩ | ⟨_, _, hs2⟩ | ⟨_, _, hs2⟩
      · rw [hs2, applyCardEffect_uno]
      · rw [hs2]
        exact applyCardEffect_uno mid card col sh
      · rw [hs2, applyCardEffect_uno]
    have hmu2 : s2.unoPlayerId = updateUnoFlag
        (modifyIdx s.players s.currentPlayerIndex
          (fun p => { p with hand := p.hand.eraseIdx cardIndex }))
        pid s.unoPlayerId := by
      rw [hmu, hmid]
    rw [hmu2] at huno
    obtain ⟨pw, hfw, hlen⟩ := updateUnoFlag_some _ _ _ huno
    exact ⟨cp, cardIndex, pw, hcp, hid, hfind, hfw, hlen⟩
  · intro s pid col sh s2 hok huno
    obtain ⟨cp, pending, mid, _, hcp, hid, hpend, howner, hmid, hbr⟩ :=
      playDrawnCard_ok_spec s pid col sh s2 hok
    have hmu : s2.unoPlayerId = mid.unoPlayerId := by
      rcases hbr with ⟨_, hs2⟩ | ⟨_, _, hs2⟩ | ⟨_, _, hs2⟩
      · rw [hs2, applyCardEffect_uno]
      · rw [hs2]
        exact applyCardEffect_uno mid pending.card col sh
      · rw [hs2, applyCardEffect_uno]
    have hmu2 : s2.unoPlayerId = updateUnoFlag s.players pid s.unoPlayerId := by
      rw [hmu, hmid]
    rw [hmu2] at huno
    exact updateUnoFlag_some _ _ _ huno
  · intro s pid sh s2 hok hnone hcontra
    obtain ⟨cp, drawnCard, restPile, _, hcp, hid, hpile, isPlayable, g, hg,
      hmv, hbr⟩ := drawCard_ok_spec s pid sh s2 hok
    rcases hbr with ⟨hp, hs2⟩ | ⟨hp, g2, hg2, hs2⟩
    · rw [hs2] at hnone
      exact Option.noConfusion hnone
    · rw [hs2] at hcontra
      have hcontra2 : (if g2.unoPlayerId = some pid then none
          else g2.unoPlayerId) = some pid := hcontra
      by_cases hq : g2.unoPlayerId = some pid
      · rw [if_pos hq] at hcontra2
        exact Option.noConfusion hcontra2
      · rw [if_neg hq] at hcontra2
        exact hq hcontra2
  · intro s pid s2 hok hcontra
    obtain ⟨cp, pending, g2, _, hcp, hid, hpend, howner, hg2, hs2⟩ :=
      passDrawnCard_ok_spec s pid s2 hok
    rw [hs2, hg2] at hcontra
    have hcontra2 : (if s.unoPlayerId = some pid then none
        else s.unoPlayerId) = some pid := hcontra
    by_cases hq : s.unoPlayerId = some pid
    · rw [if_pos hq] at hcontra2
      exact Option.noConfusion hcontra2
    · rw [if_neg hq] at hcontra2
      exact hq hcontra2
  · intro s tid cid sh s2 hok
    obtain ⟨tp, _, _, _, hs2⟩ := callUnoPenalty_ok_spec s tid cid sh s2 hok
    rw [hs2]
  · intro s pid s2 hok
    obtain ⟨p, _, _, _, hs2⟩ := callUnoSelf_ok_spec s pid s2 hok
    rw [hs2]

set_option maxRecDepth 10000 in
/-- Witness for `c7_vulnerability_amended`, at concrete inputs from the c7
trace: b's winningly-flagged sixth red play (clause 1) and a penalty call
against the flagged player b (clause 5). -/
theorem c7_vulnerability_amended_witness :
    (∃ (cp : Player) (cardIndex : Nat) (pw : Player),
       c7s11.players[c7s11.currentPlayerIndex]? = some cp ∧ cp.id = "b" ∧
       cp.hand.findIdx? (cardMatcher (numCard .red 6)) = some cardIndex ∧
       (modifyIdx c7s11.players c7s11.currentPlayerIndex
         (fun p => { p with hand := p.hand.eraseIdx cardIndex })).find?
           (fun p => decide (p.id = "b")) = some pw ∧
       pw.hand.length = 1) ∧
    (getOk (callUnoPenalty c7s12 "b" (some "a") idShuffle)).unoPlayerId =
      none :=
  ⟨c7_vulnerability_amended.1 c7s11 "b" (numCard .red 6) none idShuffle c7s12
     (by decide) (by decide),
   c7_vulnerability_amended.2.2.2.2.1 c7s12 "b" (some "a") idShuffle
     (getOk (callUnoPenalty c7s12 "b" (some "a") idShuffle)) (by decide)⟩
